import Mathlib

/- Verification of the Charta ICP scoring pipeline: a shallow embedding of
   `workers/pipeline/mine_cpt_codes.py` (the CPT-code aggregator) and
   `workers/pipeline/score_icp_production.py` (the scoring engine), together
   with theorems about their documented behaviour.

   Modelling conventions:
   * Numeric CSV columns are rationals (`ℚ`); a missing value (Python
     `None` / pandas `NaN`) is `Option.none`.  Columns that the source
     coerces with `pd.isna(x): x = 0` or `row.get(col, default)` are read
     through `Option.getD`.
   * The logarithmic sub-scores (`math.log`) are real-valued (`ℝ`); no
     branch condition of the engine depends on them.
   * Python `round(x, 1)` is rounding to one decimal (`round1` below).
     Python rounds float ties to even; ties are immaterial for every
     property proved here (bounds and monotonicity hold for either rule).
   * Python strings are `String`; the character-level operations
     (`upper`, substring containment, `split(';')`, `strip`, `int(...)`)
     are structural functions over `String.data` so they evaluate.  The
     decimal parse `int(code[:5])` accepts exactly digit strings. -/

namespace Charta

/-- Python `round(x, 1)` on rationals: round half up to one decimal. -/
def round1 (x : ℚ) : ℚ := ((round (10 * x) : ℤ) : ℚ) / 10

/-- Python `round(x, 1)` on reals, for the logarithmic sub-scores. -/
noncomputable def round1R (x : ℝ) : ℝ := ((round (10 * x) : ℤ) : ℝ) / 10

/-- Python `str.upper()` over the character list of a string. -/
def upperChars (l : List Char) : List Char := l.map Char.toUpper

/-- Python `str.lower()` over the character list of a string. -/
def lowerChars (l : List Char) : List Char := l.map Char.toLower

/-- Python `str.startswith(pat)`: `beginsWith l pat` is true when `pat` is
an initial segment of `l`. -/
def beginsWith : List Char → List Char → Bool
  | _, [] => true
  | [], _ :: _ => false
  | a :: as, b :: bs => a == b && beginsWith as bs

/-- Python `needle in haystack` on strings: substring containment. -/
def hasSub (hay needle : List Char) : Bool :=
  match hay with
  | [] => needle.isEmpty
  | _ :: t => beginsWith hay needle || hasSub t needle

/-- Python `str.split(';')` on the character list. -/
def splitOnSemi (l : List Char) : List (List Char) :=
  match l with
  | [] => [[]]
  | c :: t =>
    let r := splitOnSemi t
    if c == ';' then [] :: r
    else
      match r with
      | [] => [[c]]
      | h :: t2 => (c :: h) :: t2

/-- Python `str.strip()`: drop whitespace from both ends. -/
def trimChars (l : List Char) : List Char :=
  ((l.dropWhile Char.isWhitespace).reverse.dropWhile Char.isWhitespace).reverse

/-- Value of a decimal digit character, if it is one. -/
def digitVal (c : Char) : Option ℕ :=
  if 48 ≤ c.toNat ∧ c.toNat ≤ 57 then some (c.toNat - 48) else none

/-- Python `int(s)` restricted to non-empty all-digit strings; anything
else (the source catches `ValueError`) is `none`. -/
def natOfChars : List Char → Option ℕ
  | [] => none
  | l =>
    l.foldl
      (fun acc c =>
        match acc, digitVal c with
        | some n, some d => some (10 * n + d)
        | _, _ => none)
      (some 0)

/-- Python `str(x).lower() == 'true'`, the source's boolean-column test. -/
def truthy (s : String) : Bool := lowerChars s.data == [ 't', 'r', 'u', 'e' ]

namespace Mine

/-- One row of the Medicare utilization file, columns
`Rndrng_NPI`, `HCPCS_Cd`, `Tot_Srvcs` (mine_cpt_codes.py line 101). -/
structure ServiceRecord where
  rndrng_npi : ℤ
  hcpcs_cd : String
  tot_srvcs : ℚ
deriving DecidableEq

/-- mine_cpt_codes.py line 38. -/
def LEVEL_3_CODES : List String := [ "99203", "99213" ]

/-- mine_cpt_codes.py line 39. -/
def LEVEL_4_5_CODES : List String := [ "99204", "99205", "99214", "99215" ]

/-- mine_cpt_codes.py line 40. -/
def ALL_TARGET_CODES : List String := LEVEL_3_CODES ++ LEVEL_4_5_CODES

/-- `is_procedure_code` (mine_cpt_codes.py lines 44-54): codes shorter than
4 characters are excluded, otherwise `int(code[:5])` must lie in
[10000, 69999]; a non-numeric value (ValueError) is excluded. -/
def is_procedure_code (code : String) : Bool :=
  if code.data.length < 4 then false
  else
    match natOfChars (code.data.take 5) with
    | some n => decide (10000 ≤ n ∧ n ≤ 69999)
    | none => false

/-- The PECOS bridge (list of individual-NPI, organization-NPI links), or
`none` when the bridge files are unavailable. -/
def Bridge := Option (List (ℤ × ℤ))

/-- The inner merge with the bridge (mine_cpt_codes.py lines 114-125 and
131-141): with a bridge, each record is replaced by one copy per matching
link, re-keyed to the organization NPI (unmatched records drop out);
without a bridge the individual NPI is used as-is. -/
def applyBridge (bridge : Option (List (ℤ × ℤ))) (rs : List ServiceRecord) :
    List ServiceRecord :=
  match bridge with
  | none => rs
  | some b =>
    rs.flatMap fun r =>
      (b.filter fun e => e.1 == r.rndrng_npi).map fun e =>
        { r with rndrng_npi := e.2 }

/-- E&M rows of a chunk after target-code filtering and bridging, as
(npi, code, services) triples (mine_cpt_codes.py lines 106, 113-127). -/
def emTriples (bridge : Option (List (ℤ × ℤ))) (rs : List ServiceRecord) :
    List (ℤ × String × ℚ) :=
  (applyBridge bridge (rs.filter fun r => ALL_TARGET_CODES.contains r.hcpcs_cd)).map
    fun r => (r.rndrng_npi, r.hcpcs_cd, r.tot_srvcs)

/-- Procedure rows of a chunk after range filtering and bridging, as
(npi, services) pairs (mine_cpt_codes.py lines 109-110, 129-143). -/
def procPairs (bridge : Option (List (ℤ × ℤ))) (rs : List ServiceRecord) :
    List (ℤ × ℚ) :=
  (applyBridge bridge (rs.filter fun r => is_procedure_code r.hcpcs_cd)).map
    fun r => (r.rndrng_npi, r.tot_srvcs)

/-- Total services in `ts` keyed by organization `n` and code `c`. -/
def keySum2 (ts : List (ℤ × String × ℚ)) (n : ℤ) (c : String) : ℚ :=
  ((ts.filter fun t => t.1 == n && t.2.1 == c).map fun t => t.2.2).sum

/-- pandas `groupby([npi, code]).sum()`: one triple per distinct
(npi, code) key, carrying the summed services. -/
def groupPairs (ts : List (ℤ × String × ℚ)) : List (ℤ × String × ℚ) :=
  ((ts.map fun t => (t.1, t.2.1)).dedup).map fun k => (k.1, k.2, keySum2 ts k.1 k.2)

/-- Total services in `ps` keyed by organization `n`. -/
def keySum1 (ps : List (ℤ × ℚ)) (n : ℤ) : ℚ :=
  ((ps.filter fun t => t.1 == n).map fun t => t.2).sum

/-- pandas `groupby(npi).sum()`: one pair per distinct npi. -/
def groupOrgs (ps : List (ℤ × ℚ)) : List (ℤ × ℚ) :=
  ((ps.map fun t => t.1).dedup).map fun n => (n, keySum1 ps n)

/-- Per-chunk E&M partial aggregate (mine_cpt_codes.py lines 120-127). -/
def chunkAggEM (bridge : Option (List (ℤ × ℤ))) (chunk : List ServiceRecord) :
    List (ℤ × String × ℚ) :=
  groupPairs (emTriples bridge chunk)

/-- Per-chunk procedure partial aggregate (mine_cpt_codes.py lines 136-143). -/
def chunkAggProc (bridge : Option (List (ℤ × ℤ))) (chunk : List ServiceRecord) :
    List (ℤ × ℚ) :=
  groupOrgs (procPairs bridge chunk)

/-- Final E&M aggregate: concatenate the per-chunk partials and group again
(mine_cpt_codes.py lines 160-161). -/
def finalEM (bridge : Option (List (ℤ × ℤ))) (chunks : List (List ServiceRecord)) :
    List (ℤ × String × ℚ) :=
  groupPairs ((chunks.map (chunkAggEM bridge)).flatten)

/-- Final procedure aggregate (mine_cpt_codes.py lines 192-193). -/
def finalProc (bridge : Option (List (ℤ × ℤ))) (chunks : List (List ServiceRecord)) :
    List (ℤ × ℚ) :=
  groupOrgs ((chunks.map (chunkAggProc bridge)).flatten)

/-- One output row of the aggregator (mine_cpt_codes.py lines 173-208). -/
structure OrgRow where
  count_level_3 : ℚ
  count_level_4_5 : ℚ
  total_eval_codes : ℚ
  undercoding_ratio : ℚ
  total_procedure_codes : ℚ
  procedure_ratio : ℚ
deriving DecidableEq

/-- The aggregator's finalization keyed by organization NPI
(mine_cpt_codes.py lines 160-208): the pivot has a row for `n` iff some
bridged E&M record carries `n`; `count_level_3` and `count_level_4_5` sum
the per-code columns; organizations with `total_eval_codes < 10` are
dropped; `undercoding_ratio = count_level_4_5 / total_eval_codes`;
procedure volume is left-joined with missing values filled with 0 and
`procedure_ratio = proc / (proc + eval)` (also the value 0 produced by the
no-procedure-data branch, since then `proc = 0`). -/
def orgMetrics (bridge : Option (List (ℤ × ℤ))) (chunks : List (List ServiceRecord))
    (n : ℤ) : Option OrgRow :=
  let em := finalEM bridge chunks
  let l3 := (LEVEL_3_CODES.map fun c => keySum2 em n c).sum
  let l45 := (LEVEL_4_5_CODES.map fun c => keySum2 em n c).sum
  let te := l3 + l45
  if n ∈ em.map (fun t => t.1) ∧ 10 ≤ te then
    let proc := keySum1 (finalProc bridge chunks) n
    some
      { count_level_3 := l3
        count_level_4_5 := l45
        total_eval_codes := te
        undercoding_ratio := l45 / te
        total_procedure_codes := proc
        procedure_ratio := proc / (proc + te) }
  else none

end Mine

namespace Score

/-- One enriched organization row, the input of `calculate_row_score`
(score_icp_production.py lines 325 ff.).  String columns default to the
empty string, numeric columns to `none` (absent). -/
structure Row where
  org_name : String := ""
  segment_label : String := ""
  taxonomy : String := ""
  total_revenue : Option ℚ := none
  hospital_total_revenue : Option ℚ := none
  fqhc_revenue : Option ℚ := none
  hha_revenue : Option ℚ := none
  real_medicare_revenue : Option ℚ := none
  services_count : Option ℚ := none
  final_volume : Option ℚ := none
  volume_source : String := ""
  undercoding_ratio : Option ℚ := none
  psych_risk_ratio : Option ℚ := none
  is_aco_participant : String := ""
  risk_compliance_flag : String := ""
  oig_leie_flag : String := ""
  is_hpsa : String := "False"
  is_mua : String := "False"
  avg_mips_score : Option ℚ := none
  npi_count : Option ℚ := none
  site_count : Option ℚ := none
  total_psych_codes : Option ℚ := none
  total_eval_codes : Option ℚ := none
  net_margin : Option ℚ := none
  procedure_ratio : Option ℚ := none
  total_procedure_codes : Option ℚ := none

/-- score_icp_production.py line 23. -/
def UNDERCODING_SEVERE : ℚ := 3/20

/-- score_icp_production.py line 24. -/
def UNDERCODING_NATIONAL_AVG : ℚ := 9/20

/-- score_icp_production.py line 199. -/
def behavioral_keywords : List String :=
  [ "BEHAVIORAL", "PSYCH", "MENTAL HEALTH", "COUNSELING", "THERAPY" ]

/-- `detect_track` (score_icp_production.py lines 189-206). -/
def detect_track (row : Row) : String :=
  if row.segment_label = "Behavioral Health" then "BEHAVIORAL"
  else if behavioral_keywords.any
      (fun k => hasSub (upperChars row.org_name.data) k.data) then "BEHAVIORAL"
  else if row.segment_label = "Home Health" ∨ row.segment_label = "Hospital" then
    "POST_ACUTE"
  else "AMBULATORY"

/-- `score_undercoding_continuous` (score_icp_production.py lines 208-217),
score component only (the returned reason string is pure logging).  `none`
models a NaN ratio. -/
def score_undercoding_continuous (ratio : Option ℚ) : ℚ :=
  match ratio with
  | none => 10
  | some r =>
    if r ≤ 0 then 10
    else if UNDERCODING_NATIONAL_AVG ≤ r then 0
    else if r ≤ UNDERCODING_SEVERE then 40
    else round1 (40 - (r - UNDERCODING_SEVERE) /
        (UNDERCODING_NATIONAL_AVG - UNDERCODING_SEVERE) * 25)

/-- `score_psych_risk_continuous` (score_icp_production.py lines 219-242),
score component only. -/
def score_psych_risk_continuous (ratio : Option ℚ) : ℚ :=
  match ratio with
  | none => 10
  | some r =>
    if r ≤ 0 then 10
    else if r ≤ 3/10 then 40
    else if 3/4 ≤ r then 40
    else if 2/5 ≤ r ∧ r ≤ 3/5 then 10
    else if r < 2/5 then round1 (10 + (2/5 - r) / (2/5 - 3/10) * 30)
    else round1 (10 + (r - 3/5) / (3/4 - 3/5) * 30)

/-- The therapy share of combined psych+eval volume
(score_icp_production.py lines 406-416, identically recomputed at lines
652-658 and 691-700): 0 when eval volume is missing or non-positive,
otherwise psych / (psych + eval) guarded by a positive denominator. -/
def psych_share (total_psych_codes : ℚ) (total_eval_codes : Option ℚ) : ℚ :=
  match total_eval_codes with
  | none => 0
  | some e =>
    if 0 < e then
      if 0 < total_psych_codes + e then total_psych_codes / (total_psych_codes + e)
      else 0
    else 0

/-- The strict therapy relevance gate (score_icp_production.py line 427):
share strictly above 20% and at least 100 absolute psych codes. -/
def therapy_gate (total_psych_codes : ℚ) (total_eval_codes : Option ℚ) : Prop :=
  1/5 < psych_share total_psych_codes total_eval_codes ∧ 100 ≤ total_psych_codes

instance (p : ℚ) (e : Option ℚ) : Decidable (therapy_gate p e) :=
  inferInstanceAs (Decidable (_ ∧ _))

/-- score_icp_production.py lines 32-42; insertion order preserved. -/
def SPECIALTY_PROCEDURE_TARGETS : List (String × ℚ) :=
  [ ("213E", 3/5), ("207X", 1/2), ("207W", 3/5), ("207N", 1/2), ("204C", 2/5),
    ("204D", 2/5), ("208200", 2/5), ("207V", 1/2), ("207T", 9/20) ]

/-- score_icp_production.py line 45. -/
def PROCEDURE_DEFICIT_THRESHOLD : ℚ := 1/5

/-- `get_expected_procedure_ratio` (score_icp_production.py lines 82-99):
split the taxonomy on ';', strip blanks, and return the target of the
first code that starts with a listed taxonomy key.  A missing taxonomy is
modelled as the empty string. -/
def get_expected_procedure_ratio (taxonomy : String) : Option ℚ :=
  if taxonomy = "" then none
  else
    let codes := ((splitOnSemi taxonomy.data).map trimChars).filter
      fun c => !c.isEmpty
    codes.findSome? fun code =>
      (SPECIALTY_PROCEDURE_TARGETS.find? fun t => beginsWith code t.1.data).map
        fun t => t.2

/-- `score_procedure_alignment` (score_icp_production.py lines 101-187),
score component only (reason strings and the global data-quality counters
are reporting, not scoring).  Reads the raw, uncorrected segment label. -/
def score_procedure_alignment (row : Row) : ℚ :=
  if row.segment_label = "Private Practice" ∨ row.segment_label = "Specialty Group" then
    match get_expected_procedure_ratio row.taxonomy with
    | none => 0
    | some expected =>
      let procedure_ratio := row.procedure_ratio.getD 0
      let total_procedure_codes := row.total_procedure_codes.getD 0
      let total_eval_codes := row.total_eval_codes.getD 0
      if total_procedure_codes + total_eval_codes < 50 then 0
      else
        match row.procedure_ratio with
        | none => 0
        | some _ =>
          let deficit := expected - procedure_ratio
          if PROCEDURE_DEFICIT_THRESHOLD ≤ deficit then
            if 2/5 ≤ deficit then 10
            else round1 (4 + (deficit - PROCEDURE_DEFICIT_THRESHOLD) / (1/5) * 6)
          else 0
  else 0

/-- `score_behavioral_vbc_readiness` (score_icp_production.py lines
244-269), score component only. -/
def score_behavioral_vbc_readiness (row : Row) : ℚ :=
  let s1 : ℚ :=
    match row.avg_mips_score with
    | some m => if 80 < m then 5 else if 60 ≤ m then 3 else 0
    | none => 0
  let s2 : ℚ := if truthy row.is_aco_participant then 5 else 0
  let s3 : ℚ := if truthy row.is_hpsa || truthy row.is_mua then 5 else 0
  min (s1 + s2 + s3) 15

/-- `score_provider_count_continuous` (score_icp_production.py lines
271-277). -/
noncomputable def score_provider_count_continuous (npi_count : ℚ) : ℝ :=
  if npi_count ≤ 1 then 0
  else if 100 ≤ npi_count then 10
  else round1R (Real.log (npi_count : ℝ) / Real.log 100 * 10)

/-- `score_revenue_continuous` (score_icp_production.py lines 279-295);
the revenue argument is never NaN at its call site (the estimate chain
always produces a number). -/
noncomputable def score_revenue_continuous (revenue : ℚ) (segment : String) : ℝ :=
  if revenue ≤ 0 then 2
  else
    let min_rev : ℚ := if segment = "FQHC" then 100000 else 500000
    let max_rev : ℚ := if segment = "FQHC" then 5000000 else 15000000
    if max_rev ≤ revenue then 15
    else if revenue ≤ min_rev then 2
    else
      round1R (min 15 (max 2 (2 +
        (Real.log (revenue : ℝ) - Real.log (min_rev : ℝ)) /
          (Real.log (max_rev : ℝ) - Real.log (min_rev : ℝ)) * 13)))

/-- `score_volume_continuous` (score_icp_production.py lines 297-309). -/
noncomputable def score_volume_continuous (volume : ℚ) (is_verified : Bool) : ℝ :=
  if volume ≤ 0 then 3
  else
    let max_score : ℝ := if is_verified then 15 else 10
    if 50000 ≤ volume then max_score
    else if volume ≤ 1000 then 3
    else
      round1R (min max_score (max 3 (3 +
        (Real.log (volume : ℝ) - Real.log 1000) /
          (Real.log 50000 - Real.log 1000) * (max_score - 3))))

/-- `score_behavioral_volume_continuous` (score_icp_production.py lines
311-323). -/
noncomputable def score_behavioral_volume_continuous (volume : ℚ) (is_verified : Bool) : ℝ :=
  if volume ≤ 0 then 3
  else
    let max_score : ℝ := if is_verified then 15 else 10
    if 20000 ≤ volume then max_score
    else if volume ≤ 500 then 3
    else
      round1R (min max_score (max 3 (3 +
        (Real.log (volume : ℝ) - Real.log 500) /
          (Real.log 20000 - Real.log 500) * (max_score - 3))))

/-- The revenue fallback chain (score_icp_production.py lines 326-330). -/
def resolve_revenue (row : Row) : Option ℚ :=
  match row.total_revenue with
  | some v => some v
  | none =>
    match row.hospital_total_revenue with
    | some v => some v
    | none =>
      match row.fqhc_revenue with
      | some v => some v
      | none =>
        match row.hha_revenue with
        | some v => some v
        | none => row.real_medicare_revenue

/-- The volume metric (score_icp_production.py lines 332-334). -/
def vol_metric (row : Row) : ℚ :=
  match row.services_count with
  | some v => if 0 < v then v else row.final_volume.getD 0
  | none => row.final_volume.getD 0

/-- Verified-volume test (score_icp_production.py lines 336-337). -/
def sUDS : String := "UDS"

/-- Keyword for verified-volume detection. -/
def sVERIFIED : String := "VERIFIED"

/-- Keyword for verified-volume detection. -/
def sCLAIMS : String := "CLAIMS"

/-- Keyword for verified-volume detection. -/
def sHRSA : String := "HRSA"

/-- `is_verified_volume` (score_icp_production.py lines 336-337). -/
def is_verified_volume (row : Row) : Bool :=
  let vs := upperChars row.volume_source.data
  hasSub vs sUDS.data || hasSub vs sVERIFIED.data ||
    hasSub vs sCLAIMS.data || hasSub vs sHRSA.data

/-- True when the resolved revenue is known and below the bound
(score_icp_production.py line 352: `pd.notna(real_revenue) and
real_revenue < 10_000_000`). -/
def revenue_below (o : Option ℚ) (bound : ℚ) : Bool :=
  match o with
  | some rv => decide (rv < bound)
  | none => false

/-- The revenue-based Hospital downgrade (score_icp_production.py lines
349-353): a Hospital with known resolved revenue under $10M becomes an
Ambulatory Center; every other label passes through. -/
def corrected_segment (row : Row) : String :=
  if row.segment_label == "Hospital" && revenue_below (resolve_revenue row) 10000000 then
    "Ambulatory Center"
  else row.segment_label

/-- The per-segment alignment score (score_icp_production.py lines
466-476), default 5. -/
def segAlign (segment : String) : ℚ :=
  if segment = "FQHC" then 15
  else if segment = "Urgent Care" then 15
  else if segment = "Behavioral Health" then 10
  else if segment = "Private Practice" then 10
  else if segment = "Hospital" then 8
  else if segment = "Home Health" then 5
  else if segment = "Ambulatory Clinic" then 5
  else if segment = "Multi-specialty" then 5
  else 5

/-- The pain sub-score (score_icp_production.py lines 364-452): psych-risk
curve plus volume bonus on BEHAVIORAL, margin-driven on POST_ACUTE, and
the gated max of undercoding and therapy pain plus capped procedure
alignment on AMBULATORY. -/
def pain_score (row : Row) : ℚ :=
  let track := detect_track row
  let undercoding := row.undercoding_ratio.getD 0
  let psych_risk := row.psych_risk_ratio.getD 0
  if track = "BEHAVIORAL" then
    let pain0 := score_psych_risk_continuous (some psych_risk)
    match row.total_psych_codes with
    | some tp => if 500 < tp then min 40 (pain0 + min 5 (tp / 1000 * 5)) else pain0
    | none => pain0
  else if track = "POST_ACUTE" then
    match row.net_margin with
    | some m =>
      if m < 0 then 40
      else if m < 1/20 then round1 (25 + (1/20 - m) / (1/20) * 15)
      else 15
    | none => 10
  else
    let pain_undercoding := score_undercoding_continuous (some undercoding)
    let total_psych_codes := row.total_psych_codes.getD 0
    let pain_therapy : ℚ :=
      if therapy_gate total_psych_codes row.total_eval_codes ∧ 0 < psych_risk then
        score_psych_risk_continuous (some psych_risk)
      else 0
    let pain1 := if pain_undercoding < pain_therapy then pain_therapy else pain_undercoding
    let pa := score_procedure_alignment row
    if 0 < pa then min 40 (pain1 + pa) else pain1

/-- The data-confidence accumulator (score_icp_production.py lines 357,
373-374, 388, 451-452): +40 on BEHAVIORAL with pain ≥ 20, +30 on
POST_ACUTE with margin data, +50 on AMBULATORY with pain ≥ 30. -/
def confidence_of (row : Row) : ℚ :=
  let track := detect_track row
  if track = "BEHAVIORAL" then (if 20 ≤ pain_score row then 40 else 0)
  else if track = "POST_ACUTE" then
    (match row.net_margin with
     | some _ => 30
     | none => 0)
  else (if 30 ≤ pain_score row then 50 else 0)

/-- The fit sub-score (score_icp_production.py lines 454-503). -/
noncomputable def fit_score (row : Row) : ℝ :=
  let track := detect_track row
  let npi_count := row.npi_count.getD 1
  if track = "BEHAVIORAL" then
    round1R (10 + (score_behavioral_vbc_readiness row : ℝ) +
      min (score_provider_count_continuous npi_count) 5)
  else
    let segment := corrected_segment row
    let s2_tech_risk : ℚ :=
      (if truthy row.is_aco_participant then 3 else 0) +
        (if truthy row.risk_compliance_flag || truthy row.oig_leie_flag then 2 else 0)
    let s2_mips : ℚ :=
      match row.avg_mips_score with
      | some m => if 80 < m then 5 else if m < 50 then 5 else 0
      | none => 0
    let s2_hpsa_mua : ℚ := if truthy row.is_hpsa || truthy row.is_mua then 5 else 0
    round1R ((segAlign segment : ℝ) + score_provider_count_continuous npi_count +
      (s2_tech_risk : ℝ) + (s2_mips : ℝ) + (s2_hpsa_mua : ℝ))

/-- The strategy sub-score (score_icp_production.py lines 505-542). -/
noncomputable def strat_score (row : Row) : ℝ :=
  let track := detect_track row
  let segment := corrected_segment row
  let vm := vol_metric row
  let iv := is_verified_volume row
  if track = "BEHAVIORAL" then
    let est_rev := (resolve_revenue row).getD (vm * 150)
    let s3_revenue : ℝ :=
      if est_rev ≤ 0 then 2
      else if 15000000 ≤ est_rev then 15
      else if est_rev ≤ 1000000 then 2
      else
        round1R (min 15 (max 2 (2 +
          (Real.log (est_rev : ℝ) - Real.log 1000000) /
            (Real.log 15000000 - Real.log 1000000) * 13)))
    round1R (s3_revenue + score_behavioral_volume_continuous vm iv)
  else
    let est_rev := (resolve_revenue row).getD
      (vm * (if segment = "FQHC" then 300 else 100))
    round1R (score_revenue_continuous est_rev segment + score_volume_continuous vm iv)

/-- The total score (score_icp_production.py line 544). -/
noncomputable def total_score (row : Row) : ℝ :=
  round1R ((pain_score row : ℝ) + fit_score row + strat_score row)

/-- The tier thresholds (score_icp_production.py lines 545-548). -/
noncomputable def icp_tier_of (row : Row) : String :=
  if (70 : ℝ) ≤ total_score row then "Tier 1"
  else if (50 : ℝ) ≤ total_score row then "Tier 2"
  else if (30 : ℝ) ≤ total_score row then "Tier 3"
  else "Tier 4"

/-- The pain-label arbitration (score_icp_production.py lines 642-719).
Every branch recomputes the gate and dominance checks exactly as the
source does. -/
def pain_label_of (row : Row) : String :=
  let track := detect_track row
  let undercoding := row.undercoding_ratio.getD 0
  let psych_risk := row.psych_risk_ratio.getD 0
  if track = "BEHAVIORAL" then
    let tp := row.total_psych_codes.getD 0
    let share := psych_share tp row.total_eval_codes
    let pain_therapy_bh := score_psych_risk_continuous (some psych_risk)
    let pain_undercoding_bh := score_undercoding_continuous (some undercoding)
    if UNDERCODING_NATIONAL_AVG ≤ undercoding ∧ pain_therapy_bh = 0 then
      "Low Pain - Strong Documentation"
    else if 1/5 < share ∧ 100 ≤ tp ∧ 0 < psych_risk ∧
        pain_undercoding_bh < pain_therapy_bh then
      if psych_risk ≤ 3/10 then "Therapy Undercoding Pain"
      else if 3/4 ≤ psych_risk then "Audit Risk Pain"
      else "Therapy Coding Risk"
    else "Undercoding Pain"
  else if track = "POST_ACUTE" then "Margin Pressure"
  else
    let tp := row.total_psych_codes.getD 0
    let share := psych_share tp row.total_eval_codes
    let pain_therapy_check := score_psych_risk_continuous (some psych_risk)
    let pain_undercoding_check := score_undercoding_continuous (some undercoding)
    let pa := score_procedure_alignment row
    if UNDERCODING_NATIONAL_AVG ≤ undercoding ∧ pain_therapy_check = 0 ∧ pa = 0 then
      "Low Pain - Strong Documentation"
    else if 3 ≤ pa ∧ pain_therapy_check ≤ pa ∧ pain_undercoding_check ≤ pa then
      "Procedure Alignment Pain"
    else if 1/5 < share ∧ 100 ≤ tp ∧ 0 < psych_risk ∧
        pain_undercoding_check < pain_therapy_check then
      if psych_risk ≤ 3/10 then "Therapy Undercoding Pain"
      else if 3/4 ≤ psych_risk then "Therapy Audit Risk"
      else "Therapy Coding Risk"
    else "Undercoding Pain"

/-- The fields of the engine's result record that carry scoring content
(score_icp_production.py lines 721-749); the free-text reasoning and
driver strings are logging and are not modelled. -/
structure ScoreResult where
  icp_score : ℝ
  icp_tier : String
  segment_label : String
  scoring_track : String
  pain_label : String
  data_confidence : ℚ
  score_pain_total : ℚ
  score_fit_total : ℝ
  score_strat_total : ℝ

/-- `calculate_row_score` (score_icp_production.py lines 325-749). -/
noncomputable def calculate_row_score (row : Row) : ScoreResult :=
  { icp_score := min 100 (total_score row)
    icp_tier := icp_tier_of row
    segment_label := corrected_segment row
    scoring_track := detect_track row
    pain_label := pain_label_of row
    data_confidence := min 100 (confidence_of row)
    score_pain_total := round1 (pain_score row)
    score_fit_total := round1R (fit_score row)
    score_strat_total := round1R (strat_score row) }

end Score

namespace Mine

/-- Concrete service records for witness checks. -/
def wRecA : ServiceRecord := ⟨1001, "99213", 6⟩

/-- Concrete service record (high-complexity E&M code). -/
def wRecB : ServiceRecord := ⟨1001, "99214", 6⟩

/-- Concrete service record (procedure-range code). -/
def wRecC : ServiceRecord := ⟨1001, "23000", 4⟩

/-- A two-chunk chunking of the witness records. -/
def wChunksA : List (List ServiceRecord) := [ [wRecA, wRecB], [wRecC] ]

/-- Another chunking of the same witness records. -/
def wChunksB : List (List ServiceRecord) := [ [wRecA], [wRecB, wRecC] ]

/-- The single-chunk chunking of the same witness records. -/
def wChunksC : List (List ServiceRecord) := [ [wRecA, wRecB, wRecC] ]

/-- The expected aggregator output row for the witness records. -/
def wOrgRow : OrgRow := ⟨6, 6, 12, 1/2, 4, 1/4⟩

end Mine

namespace Score

/-- Witness row: a Private Practice with strong E&M documentation and
negligible psych volume (claim C6's scenario). -/
def wRow6 : Row :=
  { org_name := "SUNRISE FAMILY MEDICINE"
    segment_label := "Private Practice"
    undercoding_ratio := some (3/5)
    total_psych_codes := some 10
    total_eval_codes := some 1000 }

/-- Witness row: a Hospital with known revenue below $10M. -/
def wRow7a : Row :=
  { segment_label := "Hospital"
    total_revenue := some 5000000 }

/-- Witness row: a Hospital with known revenue above $10M. -/
def wRow7b : Row :=
  { segment_label := "Hospital"
    total_revenue := some 25000000 }

/-- Witness row: a Hospital with no known revenue. -/
def wRow7c : Row :=
  { segment_label := "Hospital" }

/-- Witness row: an empty organization row (AMBULATORY track). -/
def wRow9 : Row := {}

/-- Witness row: a small Hospital with a non-behavioral name. -/
def wRow10 : Row :=
  { org_name := "ST MARY GENERAL"
    segment_label := "Hospital"
    total_revenue := some 5000000 }

end Score


end Charta

namespace Charta

theorem round1_mono {x y : ℚ} (h : x ≤ y) : round1 x ≤ round1 y := by
  have h1 : round (10 * x) ≤ round (10 * y) := by
    rw [round_eq, round_eq]
    exact Int.floor_le_floor (by linarith)
  have h2 : ((round (10 * x) : ℤ) : ℚ) ≤ ((round (10 * y) : ℤ) : ℚ) := by exact_mod_cast h1
  unfold round1
  linarith

theorem round1_intCast (k : ℤ) : round1 ((k : ℚ)) = (k : ℚ) := by
  unfold round1
  rw [show (10 : ℚ) * (k : ℚ) = ((10 * k : ℤ) : ℚ) by push_cast; ring, round_intCast]
  push_cast
  ring

theorem round1R_mono {x y : ℝ} (h : x ≤ y) : round1R x ≤ round1R y := by
  have h1 : round (10 * x) ≤ round (10 * y) := by
    rw [round_eq, round_eq]
    exact Int.floor_le_floor (by linarith)
  have h2 : ((round (10 * x) : ℤ) : ℝ) ≤ ((round (10 * y) : ℤ) : ℝ) := by exact_mod_cast h1
  unfold round1R
  linarith

theorem round1R_intCast (k : ℤ) : round1R ((k : ℝ)) = (k : ℝ) := by
  unfold round1R
  rw [show (10 : ℝ) * (k : ℝ) = ((10 * k : ℤ) : ℝ) by push_cast; ring, round_intCast]
  push_cast
  ring

theorem round1R_tenths (k : ℤ) : round1R ((k : ℝ) / 10) = (k : ℝ) / 10 := by
  unfold round1R
  rw [show (10 : ℝ) * ((k : ℝ) / 10) = (k : ℝ) by ring, round_intCast]

theorem round1R_add_tenths (x : ℝ) (k : ℤ) :
    round1R (x + (k : ℝ) / 10) = round1R x + (k : ℝ) / 10 := by
  unfold round1R
  rw [show 10 * (x + (k : ℝ) / 10) = 10 * x + (k : ℝ) by ring, round_add_int]
  push_cast
  ring

theorem round1R_cast (q : ℚ) : round1R ((q : ℝ)) = ((round1 q : ℚ) : ℝ) := by
  unfold round1R round1
  rw [show (10 : ℝ) * (q : ℝ) = (((10 * q : ℚ)) : ℝ) by push_cast; ring]
  rw [Rat.round_cast]
  push_cast
  ring

theorem round1R_nonneg {x : ℝ} (h : 0 ≤ x) : 0 ≤ round1R x := by
  have h0 : round1R 0 = 0 := by
    rw [show (0 : ℝ) = ((0 : ℤ) : ℝ) by norm_num, round1R_intCast]
  have := round1R_mono h
  rw [h0] at this
  exact this

theorem round1_nonneg {x : ℚ} (h : 0 ≤ x) : 0 ≤ round1 x := by
  have h0 : round1 0 = 0 := by
    rw [show (0 : ℚ) = ((0 : ℤ) : ℚ) by norm_num, round1_intCast]
  have := round1_mono h
  rw [h0] at this
  exact this

namespace Score

theorem under_eq (r : ℚ) :
    score_undercoding_continuous (some r) =
      if r ≤ 0 then 10
      else if 9/20 ≤ r then 0
      else if r ≤ 3/20 then 40
      else round1 (40 - (r - 3/20) / (9/20 - 3/20) * 25) := rfl

theorem under_bounds (o : Option ℚ) :
    0 ≤ score_undercoding_continuous o ∧ score_undercoding_continuous o ≤ 40 := by
  rcases o with _ | r
  · norm_num [score_undercoding_continuous]
  · rw [under_eq]
    split_ifs with h1 h2 h3
    · norm_num
    · norm_num
    · norm_num
    · push_neg at h1 h2 h3
      have hexp : (r - 3/20) / (9/20 - 3/20) * 25 = (r - 3/20) * (250/3) := by ring
      constructor
      · have h15 : (15 : ℚ) ≤ 40 - (r - 3/20) / (9/20 - 3/20) * 25 := by
          rw [hexp]; nlinarith
        have := round1_mono h15
        have h15v : round1 (15 : ℚ) = 15 := by
          rw [show (15 : ℚ) = ((15 : ℤ) : ℚ) by norm_num, round1_intCast]
        rw [h15v] at this
        linarith
      · have h40 : 40 - (r - 3/20) / (9/20 - 3/20) * 25 ≤ (40 : ℚ) := by
          rw [hexp]; nlinarith
        have := round1_mono h40
        have h40v : round1 (40 : ℚ) = 40 := by
          rw [show (40 : ℚ) = ((40 : ℤ) : ℚ) by norm_num, round1_intCast]
        rw [h40v] at this
        linarith

theorem psych_eq (r : ℚ) :
    score_psych_risk_continuous (some r) =
      if r ≤ 0 then 10
      else if r ≤ 3/10 then 40
      else if 3/4 ≤ r then 40
      else if 2/5 ≤ r ∧ r ≤ 3/5 then 10
      else if r < 2/5 then round1 (10 + (2/5 - r) / (2/5 - 3/10) * 30)
      else round1 (10 + (r - 3/5) / (3/4 - 3/5) * 30) := rfl

theorem psych_bounds (o : Option ℚ) :
    10 ≤ score_psych_risk_continuous o ∧ score_psych_risk_continuous o ≤ 40 := by
  have h10v : round1 (10 : ℚ) = 10 := by
    rw [show (10 : ℚ) = ((10 : ℤ) : ℚ) by norm_num, round1_intCast]
  have h40v : round1 (40 : ℚ) = 40 := by
    rw [show (40 : ℚ) = ((40 : ℤ) : ℚ) by norm_num, round1_intCast]
  rcases o with _ | r
  · norm_num [score_psych_risk_continuous]
  · rw [psych_eq]
    split_ifs with h1 h2 h3 h4 h5
    · norm_num
    · norm_num
    · norm_num
    · norm_num
    · push_neg at h1 h2 h4
      have hexp : (2/5 - r) / (2/5 - 3/10) * 30 = (2/5 - r) * 300 := by ring
      constructor
      · have hlo : (10 : ℚ) ≤ 10 + (2/5 - r) / (2/5 - 3/10) * 30 := by rw [hexp]; nlinarith
        have := round1_mono hlo
        rw [h10v] at this; linarith
      · have hhi : 10 + (2/5 - r) / (2/5 - 3/10) * 30 ≤ (40 : ℚ) := by rw [hexp]; nlinarith
        have := round1_mono hhi
        rw [h40v] at this; linarith
    · push_neg at h1 h2 h3 h4 h5
      have h35 : 3/5 < r := by
        rcases lt_or_le (3/5 : ℚ) r with h | h
        · exact h
        · exact absurd (h4 h5) (by linarith)
      have hexp : (r - 3/5) / (3/4 - 3/5) * 30 = (r - 3/5) * 200 := by ring
      constructor
      · have hlo : (10 : ℚ) ≤ 10 + (r - 3/5) / (3/4 - 3/5) * 30 := by rw [hexp]; nlinarith
        have := round1_mono hlo
        rw [h10v] at this; linarith
      · have hhi : 10 + (r - 3/5) / (3/4 - 3/5) * 30 ≤ (40 : ℚ) := by rw [hexp]; nlinarith
        have := round1_mono hhi
        rw [h40v] at this; linarith

end Score

namespace Score

theorem under_interp_nonneg {r : ℚ} (h2 : r < 9/20) :
    0 ≤ round1 (40 - (r - 3/20) / (9/20 - 3/20) * 25) := by
  apply round1_nonneg
  have hexp : (r - 3/20) / (9/20 - 3/20) * 25 = (r - 3/20) * (250/3) := by ring
  rw [hexp]
  nlinarith

/-- C1: for every ratio `r`, `score_undercoding_continuous` stays in
[0, 40], is monotonically non-increasing for `r > 0.15`, returns 10 for a
missing or non-positive ratio, 40 on (0, 0.15], exactly 0 for
`r ≥ 0.45`, and the rounded linear interpolation
`40 - (r - 0.15) / (0.45 - 0.15) * 25` strictly between 0.15 and 0.45. -/
theorem C1_undercoding_curve :
    (∀ o : Option ℚ, 0 ≤ score_undercoding_continuous o ∧
        score_undercoding_continuous o ≤ 40)
    ∧ (∀ r1 r2 : ℚ, 3/20 < r1 → r1 ≤ r2 →
        score_undercoding_continuous (some r2) ≤ score_undercoding_continuous (some r1))
    ∧ score_undercoding_continuous none = 10
    ∧ (∀ r : ℚ, r ≤ 0 → score_undercoding_continuous (some r) = 10)
    ∧ (∀ r : ℚ, 0 < r → r ≤ 3/20 → score_undercoding_continuous (some r) = 40)
    ∧ (∀ r : ℚ, 9/20 ≤ r → score_undercoding_continuous (some r) = 0)
    ∧ (∀ r : ℚ, 3/20 < r → r < 9/20 →
        score_undercoding_continuous (some r) =
          round1 (40 - (r - 3/20) / (9/20 - 3/20) * 25)) := by
  refine ⟨under_bounds, ?_, rfl, ?_, ?_, ?_, ?_⟩
  · intro r1 r2 hr1 hr12
    have h1 : ¬ (r1 ≤ 0) := by linarith
    have h2 : ¬ (r2 ≤ 0) := by linarith
    have h3 : ¬ (r1 ≤ 3/20) := by linarith
    have h4 : ¬ (r2 ≤ 3/20) := by linarith
    rw [under_eq, under_eq, if_neg h1, if_neg h2]
    by_cases ha : 9/20 ≤ r1
    · have hb : 9/20 ≤ r2 := by linarith
      rw [if_pos ha, if_pos hb]
    · rw [if_neg ha, if_neg h3]
      by_cases hb : 9/20 ≤ r2
      · rw [if_pos hb]
        exact under_interp_nonneg (by linarith)
      · rw [if_neg hb, if_neg h4]
        apply round1_mono
        have he1 : (r1 - 3/20) / (9/20 - 3/20) * 25 = (r1 - 3/20) * (250/3) := by ring
        have he2 : (r2 - 3/20) / (9/20 - 3/20) * 25 = (r2 - 3/20) * (250/3) := by ring
        rw [he1, he2]
        nlinarith
  · intro r hr
    rw [under_eq, if_pos hr]
  · intro r hr0 hr
    rw [under_eq, if_neg (by linarith), if_neg (by linarith), if_pos hr]
  · intro r hr
    rw [under_eq, if_neg (by linarith), if_pos hr]
  · intro r hr1 hr2
    rw [under_eq, if_neg (by linarith), if_neg (by linarith), if_neg (by linarith)]

theorem C1_undercoding_curve_witness :
    score_undercoding_continuous (some (3/10)) ≤ score_undercoding_continuous (some (1/4))
    ∧ score_undercoding_continuous (some (-1)) = 10
    ∧ score_undercoding_continuous (some (1/10)) = 40
    ∧ score_undercoding_continuous (some (1/2)) = 0
    ∧ score_undercoding_continuous (some (3/10)) =
        round1 (40 - (3/10 - 3/20) / (9/20 - 3/20) * 25)
    ∧ score_undercoding_continuous (some (3/10)) = 55/2 := by
  refine ⟨C1_undercoding_curve.2.1 (1/4) (3/10) (by norm_num) (by norm_num),
    C1_undercoding_curve.2.2.2.1 (-1) (by norm_num),
    C1_undercoding_curve.2.2.2.2.1 (1/10) (by norm_num) (by norm_num),
    C1_undercoding_curve.2.2.2.2.2.1 (1/2) (by norm_num),
    C1_undercoding_curve.2.2.2.2.2.2 (3/10) (by norm_num) (by norm_num), ?_⟩
  norm_num [score_undercoding_continuous, UNDERCODING_SEVERE, UNDERCODING_NATIONAL_AVG,
    round1, round_eq]

/-- C2 counterexample: the psych-risk curve is not mirror-symmetric about
the centre of the plateau [0.40, 0.60]: at equal distance 0.15 from the
centre 0.50 the two sides give 25 (left, at 0.35) and 20 (right, at
0.65), because the left tail spans 0.10 while the right tail spans
0.15. -/
theorem C2_psych_curve_counterexample :
    score_psych_risk_continuous (some (1/2 - 3/20)) = 25
    ∧ score_psych_risk_continuous (some (1/2 + 3/20)) = 20
    ∧ score_psych_risk_continuous (some (1/2 - 3/20)) ≠
        score_psych_risk_continuous (some (1/2 + 3/20)) := by
  norm_num [score_psych_risk_continuous, round1, round_eq]

/-- C2 (amended): for every ratio `r`, `score_psych_risk_continuous(r)`
is in [10, 40], U-shaped around the plateau [0.40, 0.60] — flat 10 on the
plateau and rising linearly to 40 on both sides, the left tail over
(0.30, 0.40) and the right tail over (0.60, 0.75), so with different
slopes rather than mirror symmetry — and returns exactly 40 for every r
with 0 < r ≤ 0.30 and every r ≥ 0.75 (10 for missing or non-positive
ratios). -/
theorem C2_psych_curve :
    (∀ o : Option ℚ, 10 ≤ score_psych_risk_continuous o ∧
        score_psych_risk_continuous o ≤ 40)
    ∧ score_psych_risk_continuous none = 10
    ∧ (∀ r : ℚ, r ≤ 0 → score_psych_risk_continuous (some r) = 10)
    ∧ (∀ r : ℚ, 2/5 ≤ r → r ≤ 3/5 → score_psych_risk_continuous (some r) = 10)
    ∧ (∀ r : ℚ, 0 < r → r ≤ 3/10 → score_psych_risk_continuous (some r) = 40)
    ∧ (∀ r : ℚ, 3/4 ≤ r → score_psych_risk_continuous (some r) = 40)
    ∧ (∀ r : ℚ, 3/10 < r → r < 2/5 →
        score_psych_risk_continuous (some r) =
          round1 (10 + (2/5 - r) / (2/5 - 3/10) * 30))
    ∧ (∀ r : ℚ, 3/5 < r → r < 3/4 →
        score_psych_risk_continuous (some r) =
          round1 (10 + (r - 3/5) / (3/4 - 3/5) * 30)) := by
  refine ⟨psych_bounds, rfl, ?_, ?_, ?_, ?_, ?_, ?_⟩
  · intro r hr
    rw [psych_eq, if_pos hr]
  · intro r h1 h2
    rw [psych_eq, if_neg (by linarith), if_neg (by linarith), if_neg (by linarith),
      if_pos ⟨h1, h2⟩]
  · intro r h1 h2
    rw [psych_eq, if_neg (by linarith), if_pos h2]
  · intro r h1
    rw [psych_eq, if_neg (by linarith), if_neg (by linarith), if_pos h1]
  · intro r h1 h2
    rw [psych_eq, if_neg (by linarith), if_neg (by linarith), if_neg (by linarith),
      if_neg (by rintro ⟨ha, _⟩; linarith), if_pos h2]
  · intro r h1 h2
    rw [psych_eq, if_neg (by linarith), if_neg (by linarith), if_neg (by linarith),
      if_neg (by rintro ⟨_, hb⟩; linarith), if_neg (by push_neg; linarith)]

theorem C2_psych_curve_witness :
    score_psych_risk_continuous (some (1/2)) = 10
    ∧ score_psych_risk_continuous (some (1/4)) = 40
    ∧ score_psych_risk_continuous (some (4/5)) = 40
    ∧ score_psych_risk_continuous (some (-2)) = 10
    ∧ score_psych_risk_continuous (some (7/20)) =
        round1 (10 + (2/5 - 7/20) / (2/5 - 3/10) * 30)
    ∧ score_psych_risk_continuous (some (13/20)) =
        round1 (10 + (13/20 - 3/5) / (3/4 - 3/5) * 30) := by
  refine ⟨C2_psych_curve.2.2.2.1 (1/2) (by norm_num) (by norm_num),
    C2_psych_curve.2.2.2.2.1 (1/4) (by norm_num) (by norm_num),
    C2_psych_curve.2.2.2.2.2.1 (4/5) (by norm_num),
    C2_psych_curve.2.2.1 (-2) (by norm_num),
    C2_psych_curve.2.2.2.2.2.2.1 (7/20) (by norm_num) (by norm_num),
    C2_psych_curve.2.2.2.2.2.2.2 (13/20) (by norm_num) (by norm_num)⟩

/-- C3: the therapy relevance gate of the AMBULATORY pain path is a pure
function of the psych share and the absolute psych volume — it passes iff
`psych_share > 0.20` and `total_psych_codes ≥ 100` — and the share is
forced to 0 whenever evaluation-code volume is missing or non-positive,
so the gate then never passes regardless of psych volume. -/
theorem C3_therapy_gate_characterization :
    (∀ p : ℚ, ∀ e : Option ℚ, therapy_gate p e ↔
        1/5 < psych_share p e ∧ 100 ≤ p)
    ∧ (∀ p : ℚ, psych_share p none = 0)
    ∧ (∀ p x : ℚ, x ≤ 0 → psych_share p (some x) = 0)
    ∧ (∀ p : ℚ, ¬ therapy_gate p none)
    ∧ (∀ p x : ℚ, x ≤ 0 → ¬ therapy_gate p (some x)) := by
  have hshare0 : ∀ p x : ℚ, x ≤ 0 → psych_share p (some x) = 0 := by
    intro p x hx
    simp only [psych_share]
    rw [if_neg (by linarith)]
  refine ⟨fun p e => Iff.rfl, fun p => rfl, hshare0, ?_, ?_⟩
  · intro p hgate
    rcases hgate with ⟨hlt, _⟩
    have : psych_share p none = 0 := rfl
    rw [this] at hlt
    norm_num at hlt
  · intro p x hx hgate
    rcases hgate with ⟨hlt, _⟩
    rw [hshare0 p x hx] at hlt
    norm_num at hlt

theorem C3_therapy_gate_witness :
    (therapy_gate 150 (some 100) ↔
        1/5 < psych_share 150 (some 100) ∧ 100 ≤ (150 : ℚ))
    ∧ psych_share 200 (some 0) = 0
    ∧ ¬ therapy_gate 200 (some 0)
    ∧ ¬ therapy_gate 200 none
    ∧ psych_share 200 none = 0 :=
  ⟨C3_therapy_gate_characterization.1 150 (some 100),
    C3_therapy_gate_characterization.2.2.1 200 0 (by norm_num),
    C3_therapy_gate_characterization.2.2.2.2 200 0 (by norm_num),
    C3_therapy_gate_characterization.2.2.2.1 200,
    C3_therapy_gate_characterization.2.1 200⟩

end Score

namespace Mine

theorem keySum2_append (a b : List (ℤ × String × ℚ)) (n : ℤ) (c : String) :
    keySum2 (a ++ b) n c = keySum2 a n c + keySum2 b n c := by
  unfold keySum2
  rw [List.filter_append, List.map_append, List.sum_append]

theorem keySum1_append (a b : List (ℤ × ℚ)) (n : ℤ) :
    keySum1 (a ++ b) n = keySum1 a n + keySum1 b n := by
  unfold keySum1
  rw [List.filter_append, List.map_append, List.sum_append]

theorem keySum2_flatten (ls : List (List (ℤ × String × ℚ))) (n : ℤ) (c : String) :
    keySum2 ls.flatten n c = (ls.map fun ts => keySum2 ts n c).sum := by
  induction ls with
  | nil => simp [keySum2]
  | cons h t ih => rw [List.flatten_cons, keySum2_append, ih, List.map_cons, List.sum_cons]

theorem keySum1_flatten (ls : List (List (ℤ × ℚ))) (n : ℤ) :
    keySum1 ls.flatten n = (ls.map fun ps => keySum1 ps n).sum := by
  induction ls with
  | nil => simp [keySum1]
  | cons h t ih => rw [List.flatten_cons, keySum1_append, ih, List.map_cons, List.sum_cons]

theorem keySum2_cons (t : ℤ × String × ℚ) (ts : List (ℤ × String × ℚ)) (n : ℤ)
    (c : String) :
    keySum2 (t :: ts) n c =
      (if t.1 = n ∧ t.2.1 = c then t.2.2 else 0) + keySum2 ts n c := by
  unfold keySum2
  rw [List.filter_cons]
  by_cases h : t.1 = n ∧ t.2.1 = c
  · rw [if_pos (by simp [h.1, h.2]), if_pos h, List.map_cons, List.sum_cons]
  · rw [if_neg (by simpa using h), if_neg h, zero_add]

theorem keySum1_cons (t : ℤ × ℚ) (ts : List (ℤ × ℚ)) (n : ℤ) :
    keySum1 (t :: ts) n = (if t.1 = n then t.2 else 0) + keySum1 ts n := by
  unfold keySum1
  rw [List.filter_cons]
  by_cases h : t.1 = n
  · rw [if_pos (by simp [h]), if_pos h, List.map_cons, List.sum_cons]
  · rw [if_neg (by simpa using h), if_neg h, zero_add]

theorem keySum2_eq_zero {ts : List (ℤ × String × ℚ)} {n : ℤ} {c : String}
    (h : ∀ t ∈ ts, ¬(t.1 = n ∧ t.2.1 = c)) : keySum2 ts n c = 0 := by
  induction ts with
  | nil => simp [keySum2]
  | cons t ts ih =>
    rw [keySum2_cons, if_neg (h t (by simp)), zero_add]
    exact ih fun u hu => h u (by simp [hu])

theorem keySum1_eq_zero {ps : List (ℤ × ℚ)} {n : ℤ}
    (h : ∀ t ∈ ps, ¬ t.1 = n) : keySum1 ps n = 0 := by
  induction ps with
  | nil => simp [keySum1]
  | cons t ts ih =>
    rw [keySum1_cons, if_neg (h t (by simp)), zero_add]
    exact ih fun u hu => h u (by simp [hu])

theorem keySum2_keyMap (ts : List (ℤ × String × ℚ)) (n : ℤ) (c : String)
    (d : List (ℤ × String)) (hd : d.Nodup) :
    keySum2 (d.map fun k => (k.1, k.2, keySum2 ts k.1 k.2)) n c =
      if (n, c) ∈ d then keySum2 ts n c else 0 := by
  induction d with
  | nil => simp [keySum2]
  | cons k d ih =>
    obtain ⟨hknot, hndt⟩ := List.nodup_cons.mp hd
    rw [List.map_cons, keySum2_cons, ih hndt]
    by_cases hk : k = (n, c)
    · have hk1 : k.1 = n := by rw [hk]
      have hk2 : k.2 = c := by rw [hk]
      have hnotin : (n, c) ∉ d := by rw [← hk]; exact hknot
      rw [if_pos (by exact ⟨hk1, hk2⟩), if_neg hnotin, if_pos (by simp [hk]), add_zero,
        hk1, hk2]
    · have hcond : ¬((k.1, k.2, keySum2 ts k.1 k.2).1 = n ∧
          (k.1, k.2, keySum2 ts k.1 k.2).2.1 = c) := by
        intro hc
        exact hk (Prod.ext hc.1 hc.2)
      rw [if_neg hcond, zero_add]
      have hmem : ((n, c) ∈ k :: d) ↔ ((n, c) ∈ d) := by
        simp only [List.mem_cons]
        constructor
        · rintro (h | h)
          · exact absurd h.symm hk
          · exact h
        · exact fun h => Or.inr h
      exact if_congr hmem.symm rfl rfl

theorem keySum1_keyMap (ps : List (ℤ × ℚ)) (n : ℤ) (d : List ℤ) (hd : d.Nodup) :
    keySum1 (d.map fun k => (k, keySum1 ps k)) n =
      if n ∈ d then keySum1 ps n else 0 := by
  induction d with
  | nil => simp [keySum1]
  | cons k d ih =>
    obtain ⟨hknot, hndt⟩ := List.nodup_cons.mp hd
    rw [List.map_cons, keySum1_cons, ih hndt]
    by_cases hk : k = n
    · have hnotin : n ∉ d := by rw [← hk]; exact hknot
      rw [if_pos hk, if_neg hnotin, if_pos (by simp [hk]), add_zero, hk]
    · rw [if_neg hk, zero_add]
      have hmem : (n ∈ k :: d) ↔ (n ∈ d) := by
        simp only [List.mem_cons]
        constructor
        · rintro (h | h)
          · exact absurd h.symm hk
          · exact h
        · exact fun h => Or.inr h
      exact if_congr hmem.symm rfl rfl

theorem keySum2_groupPairs (ts : List (ℤ × String × ℚ)) (n : ℤ) (c : String) :
    keySum2 (groupPairs ts) n c = keySum2 ts n c := by
  unfold groupPairs
  rw [keySum2_keyMap ts n c _ (List.nodup_dedup _)]
  by_cases h : (n, c) ∈ ts.map fun t => (t.1, t.2.1)
  · rw [if_pos (List.mem_dedup.mpr h)]
  · rw [if_neg fun hc => h (List.mem_dedup.mp hc)]
    symm
    apply keySum2_eq_zero
    intro t ht hc
    exact h (List.mem_map.mpr ⟨t, ht, Prod.ext hc.1 hc.2⟩)

theorem keySum1_groupOrgs (ps : List (ℤ × ℚ)) (n : ℤ) :
    keySum1 (groupOrgs ps) n = keySum1 ps n := by
  unfold groupOrgs
  rw [keySum1_keyMap ps n _ (List.nodup_dedup _)]
  by_cases h : n ∈ ps.map fun t => t.1
  · rw [if_pos (List.mem_dedup.mpr h)]
  · rw [if_neg fun hc => h (List.mem_dedup.mp hc)]
    symm
    apply keySum1_eq_zero
    intro t ht hc
    exact h (List.mem_map.mpr ⟨t, ht, hc⟩)

theorem exists_fst_groupPairs (ts : List (ℤ × String × ℚ)) (n : ℤ) :
    (∃ t ∈ groupPairs ts, t.1 = n) ↔ ∃ t ∈ ts, t.1 = n := by
  unfold groupPairs
  constructor
  · rintro ⟨t, ht, rfl⟩
    obtain ⟨k, hk, rfl⟩ := List.mem_map.mp ht
    obtain ⟨u, hu, hueq⟩ := List.mem_map.mp (List.mem_dedup.mp hk)
    refine ⟨u, hu, ?_⟩
    have : u.1 = k.1 := by rw [← hueq]
    exact this
  · rintro ⟨t, ht, rfl⟩
    refine ⟨(t.1, t.2.1, keySum2 ts t.1 t.2.1), ?_, rfl⟩
    have hk : (t.1, t.2.1) ∈ ts.map fun t => (t.1, t.2.1) :=
      List.mem_map.mpr ⟨t, ht, rfl⟩
    exact List.mem_map.mpr ⟨(t.1, t.2.1), List.mem_dedup.mpr hk, rfl⟩

theorem exists_fst_groupOrgs (ps : List (ℤ × ℚ)) (n : ℤ) :
    (∃ t ∈ groupOrgs ps, t.1 = n) ↔ ∃ t ∈ ps, t.1 = n := by
  unfold groupOrgs
  constructor
  · rintro ⟨t, ht, rfl⟩
    obtain ⟨k, hk, rfl⟩ := List.mem_map.mp ht
    obtain ⟨u, hu, hueq⟩ := List.mem_map.mp (List.mem_dedup.mp hk)
    exact ⟨u, hu, hueq⟩
  · rintro ⟨t, ht, rfl⟩
    refine ⟨(t.1, keySum1 ps t.1), ?_, rfl⟩
    have hk : t.1 ∈ ps.map fun t => t.1 := List.mem_map.mpr ⟨t, ht, rfl⟩
    exact List.mem_map.mpr ⟨t.1, List.mem_dedup.mpr hk, rfl⟩

theorem applyBridge_append (b : Option (List (ℤ × ℤ))) (xs ys : List ServiceRecord) :
    applyBridge b (xs ++ ys) = applyBridge b xs ++ applyBridge b ys := by
  cases b with
  | none => rfl
  | some l => simp [applyBridge]

theorem applyBridge_nil (b : Option (List (ℤ × ℤ))) : applyBridge b [] = [] := by
  cases b <;> rfl

theorem emTriples_append (b : Option (List (ℤ × ℤ))) (xs ys : List ServiceRecord) :
    emTriples b (xs ++ ys) = emTriples b xs ++ emTriples b ys := by
  unfold emTriples
  rw [List.filter_append, applyBridge_append, List.map_append]

theorem emTriples_nil (b : Option (List (ℤ × ℤ))) : emTriples b [] = [] := by
  unfold emTriples
  rw [List.filter_nil, applyBridge_nil, List.map_nil]

theorem emTriples_flatten (b : Option (List (ℤ × ℤ))) (chunks : List (List ServiceRecord)) :
    emTriples b chunks.flatten = (chunks.map (emTriples b)).flatten := by
  induction chunks with
  | nil => simp [emTriples_nil]
  | cons h t ih =>
    rw [List.flatten_cons, emTriples_append, ih, List.map_cons, List.flatten_cons]

theorem procPairs_append (b : Option (List (ℤ × ℤ))) (xs ys : List ServiceRecord) :
    procPairs b (xs ++ ys) = procPairs b xs ++ procPairs b ys := by
  unfold procPairs
  rw [List.filter_append, applyBridge_append, List.map_append]

theorem procPairs_nil (b : Option (List (ℤ × ℤ))) : procPairs b [] = [] := by
  unfold procPairs
  rw [List.filter_nil, applyBridge_nil, List.map_nil]

theorem procPairs_flatten (b : Option (List (ℤ × ℤ))) (chunks : List (List ServiceRecord)) :
    procPairs b chunks.flatten = (chunks.map (procPairs b)).flatten := by
  induction chunks with
  | nil => simp [procPairs_nil]
  | cons h t ih =>
    rw [List.flatten_cons, procPairs_append, ih, List.map_cons, List.flatten_cons]

theorem finalEM_keySum (b : Option (List (ℤ × ℤ))) (chunks : List (List ServiceRecord))
    (n : ℤ) (c : String) :
    keySum2 (finalEM b chunks) n c = keySum2 (emTriples b chunks.flatten) n c := by
  rw [finalEM, keySum2_groupPairs, keySum2_flatten, emTriples_flatten, keySum2_flatten,
    List.map_map, List.map_map]
  congr 1
  apply List.map_congr_left
  intro chunk _
  simp only [Function.comp_apply]
  rw [chunkAggEM, keySum2_groupPairs]

theorem finalProc_keySum (b : Option (List (ℤ × ℤ))) (chunks : List (List ServiceRecord))
    (n : ℤ) :
    keySum1 (finalProc b chunks) n = keySum1 (procPairs b chunks.flatten) n := by
  rw [finalProc, keySum1_groupOrgs, keySum1_flatten, procPairs_flatten, keySum1_flatten,
    List.map_map, List.map_map]
  congr 1
  apply List.map_congr_left
  intro chunk _
  simp only [Function.comp_apply]
  rw [chunkAggProc, keySum1_groupOrgs]

theorem finalEM_exists_fst (b : Option (List (ℤ × ℤ))) (chunks : List (List ServiceRecord))
    (n : ℤ) :
    (∃ t ∈ finalEM b chunks, t.1 = n) ↔ ∃ t ∈ emTriples b chunks.flatten, t.1 = n := by
  rw [finalEM, exists_fst_groupPairs, emTriples_flatten]
  simp only [List.mem_flatten, List.mem_map]
  constructor
  · rintro ⟨t, ⟨s, ⟨chunk, hchunk, rfl⟩, hts⟩, rfl⟩
    obtain ⟨u, hu, huq⟩ := (exists_fst_groupPairs (emTriples b chunk) t.1).mp ⟨t, hts, rfl⟩
    exact ⟨u, ⟨emTriples b chunk, ⟨chunk, hchunk, rfl⟩, hu⟩, huq⟩
  · rintro ⟨t, ⟨s, ⟨chunk, hchunk, rfl⟩, hts⟩, rfl⟩
    obtain ⟨u, hu, huq⟩ :=
      (exists_fst_groupPairs (emTriples b chunk) t.1).mpr ⟨t, hts, rfl⟩
    exact ⟨u, ⟨chunkAggEM b chunk, ⟨chunk, hchunk, rfl⟩, hu⟩, huq⟩

end Mine

namespace Mine

theorem applyBridge_srvcs {b : Option (List (ℤ × ℤ))} {rs : List ServiceRecord} :
    ∀ r' ∈ applyBridge b rs, ∃ r ∈ rs, r'.tot_srvcs = r.tot_srvcs := by
  intro r' h
  cases b with
  | none => exact ⟨r', h, rfl⟩
  | some l =>
    simp only [applyBridge, List.mem_flatMap, List.mem_map] at h
    obtain ⟨r, hr, e, he, rfl⟩ := h
    exact ⟨r, hr, rfl⟩

theorem emTriples_srvcs_nonneg {b : Option (List (ℤ × ℤ))} {rs : List ServiceRecord}
    (h : ∀ r ∈ rs, 0 ≤ r.tot_srvcs) : ∀ t ∈ emTriples b rs, 0 ≤ t.2.2 := by
  intro t ht
  unfold emTriples at ht
  obtain ⟨r', hr', rfl⟩ := List.mem_map.mp ht
  obtain ⟨r, hr, heq⟩ := applyBridge_srvcs r' hr'
  have hm : r ∈ rs := List.mem_of_mem_filter hr
  calc (0 : ℚ) ≤ r.tot_srvcs := h r hm
    _ = r'.tot_srvcs := heq.symm

theorem procPairs_srvcs_nonneg {b : Option (List (ℤ × ℤ))} {rs : List ServiceRecord}
    (h : ∀ r ∈ rs, 0 ≤ r.tot_srvcs) : ∀ t ∈ procPairs b rs, 0 ≤ t.2 := by
  intro t ht
  unfold procPairs at ht
  obtain ⟨r', hr', rfl⟩ := List.mem_map.mp ht
  obtain ⟨r, hr, heq⟩ := applyBridge_srvcs r' hr'
  have hm : r ∈ rs := List.mem_of_mem_filter hr
  calc (0 : ℚ) ≤ r.tot_srvcs := h r hm
    _ = r'.tot_srvcs := heq.symm

theorem keySum2_nonneg {ts : List (ℤ × String × ℚ)} {n : ℤ} {c : String}
    (h : ∀ t ∈ ts, 0 ≤ t.2.2) : 0 ≤ keySum2 ts n c := by
  unfold keySum2
  apply List.sum_nonneg
  intro x hx
  obtain ⟨t, ht, rfl⟩ := List.mem_map.mp hx
  exact h t (List.mem_of_mem_filter ht)

theorem keySum1_nonneg {ps : List (ℤ × ℚ)} {n : ℤ}
    (h : ∀ t ∈ ps, 0 ≤ t.2) : 0 ≤ keySum1 ps n := by
  unfold keySum1
  apply List.sum_nonneg
  intro x hx
  obtain ⟨t, ht, rfl⟩ := List.mem_map.mp hx
  exact h t (List.mem_of_mem_filter ht)

/-- C8: the aggregator's output is independent of the chunking of the
record stream: any two chunkings of the same flat list of service records
produce identical per-organization metrics (every column), for every
bridge and every organization. -/
theorem C8_chunk_size_invariance :
    ∀ (bridge : Option (List (ℤ × ℤ))) (chunks1 chunks2 : List (List ServiceRecord)),
      chunks1.flatten = chunks2.flatten →
      ∀ n : ℤ, orgMetrics bridge chunks1 n = orgMetrics bridge chunks2 n := by
  intro b c1 c2 hf n
  have hEM : ∀ c : String, keySum2 (finalEM b c1) n c = keySum2 (finalEM b c2) n c := by
    intro c
    rw [finalEM_keySum, finalEM_keySum, hf]
  have hl3 : (LEVEL_3_CODES.map fun c => keySum2 (finalEM b c1) n c) =
      LEVEL_3_CODES.map fun c => keySum2 (finalEM b c2) n c :=
    List.map_congr_left fun c _ => hEM c
  have hl45 : (LEVEL_4_5_CODES.map fun c => keySum2 (finalEM b c1) n c) =
      LEVEL_4_5_CODES.map fun c => keySum2 (finalEM b c2) n c :=
    List.map_congr_left fun c _ => hEM c
  have hproc : keySum1 (finalProc b c1) n = keySum1 (finalProc b c2) n := by
    rw [finalProc_keySum, finalProc_keySum, hf]
  have hmem : (n ∈ (finalEM b c1).map fun t => t.1) ↔
      (n ∈ (finalEM b c2).map fun t => t.1) := by
    have h1 := finalEM_exists_fst b c1 n
    have h2 := finalEM_exists_fst b c2 n
    rw [hf] at h1
    simp only [List.mem_map]
    exact h1.trans h2.symm
  simp only [orgMetrics]
  rw [hl3, hl45, hproc]
  exact if_congr (and_congr_left fun _ => hmem) rfl rfl

/-- C4: every row emitted by the aggregator's finalization (for any
chunking, bridge and organization, over service counts that are
non-negative as in the source data) has `total_eval_codes ≥ 10` (the hard
volume floor), `count_level_3 + count_level_4_5 = total_eval_codes`,
`undercoding_ratio = count_level_4_5 / total_eval_codes ∈ [0, 1]`, and
`procedure_ratio = total_procedure_codes / (total_procedure_codes +
total_eval_codes) ∈ [0, 1]`, which is 0 when there is no procedure
volume. -/
theorem C4_aggregator_row_invariants :
    ∀ (bridge : Option (List (ℤ × ℤ))) (chunks : List (List ServiceRecord)) (n : ℤ)
      (row : OrgRow),
      (∀ chunk ∈ chunks, ∀ r ∈ chunk, 0 ≤ r.tot_srvcs) →
      orgMetrics bridge chunks n = some row →
      10 ≤ row.total_eval_codes
      ∧ row.count_level_3 + row.count_level_4_5 = row.total_eval_codes
      ∧ row.undercoding_ratio = row.count_level_4_5 / row.total_eval_codes
      ∧ 0 ≤ row.undercoding_ratio ∧ row.undercoding_ratio ≤ 1
      ∧ row.procedure_ratio =
          row.total_procedure_codes / (row.total_procedure_codes + row.total_eval_codes)
      ∧ 0 ≤ row.procedure_ratio ∧ row.procedure_ratio ≤ 1
      ∧ (row.total_procedure_codes = 0 → row.procedure_ratio = 0) := by
  intro b chunks n row hnn hsome
  have hflat : ∀ r ∈ chunks.flatten, 0 ≤ r.tot_srvcs := by
    intro r hr
    rw [List.mem_flatten] at hr
    obtain ⟨chunk, hc, hrc⟩ := hr
    exact hnn chunk hc r hrc
  have hks : ∀ c : String, 0 ≤ keySum2 (finalEM b chunks) n c := by
    intro c
    rw [finalEM_keySum]
    exact keySum2_nonneg (emTriples_srvcs_nonneg hflat)
  have hl3 : 0 ≤ (LEVEL_3_CODES.map fun c => keySum2 (finalEM b chunks) n c).sum := by
    apply List.sum_nonneg
    intro x hx
    obtain ⟨c, _, rfl⟩ := List.mem_map.mp hx
    exact hks c
  have hl45 : 0 ≤ (LEVEL_4_5_CODES.map fun c => keySum2 (finalEM b chunks) n c).sum := by
    apply List.sum_nonneg
    intro x hx
    obtain ⟨c, _, rfl⟩ := List.mem_map.mp hx
    exact hks c
  have hproc : 0 ≤ keySum1 (finalProc b chunks) n := by
    rw [finalProc_keySum]
    exact keySum1_nonneg (procPairs_srvcs_nonneg hflat)
  simp only [orgMetrics] at hsome
  set l3 := (LEVEL_3_CODES.map fun c => keySum2 (finalEM b chunks) n c).sum with hl3def
  set l45 := (LEVEL_4_5_CODES.map fun c => keySum2 (finalEM b chunks) n c).sum with hl45def
  set proc := keySum1 (finalProc b chunks) n with hprocdef
  by_cases hcond : (n ∈ (finalEM b chunks).map fun t => t.1) ∧ 10 ≤ l3 + l45
  · rw [if_pos hcond] at hsome
    have hrow := (Option.some.inj hsome).symm
    have hte : (10 : ℚ) ≤ l3 + l45 := hcond.2
    subst hrow
    refine ⟨hte, rfl, rfl, ?_, ?_, rfl, ?_, ?_, ?_⟩
    · exact div_nonneg hl45 (by linarith)
    · rw [div_le_one (by linarith)]
      linarith
    · exact div_nonneg hproc (by linarith)
    · rw [div_le_one (by linarith)]
      linarith
    · intro h0
      have h0q : proc = 0 := h0
      rw [show proc / (proc + (l3 + l45)) = 0 / (0 + (l3 + l45)) by rw [h0q], zero_div]
  · rw [if_neg hcond] at hsome
    exact absurd hsome (by simp)

theorem keySum2_nil (n : ℤ) (c : String) : keySum2 [] n c = 0 := rfl

theorem keySum1_nil (n : ℤ) : keySum1 [] n = 0 := rfl

theorem wem : emTriples none wChunksA.flatten =
    [ (1001, "99213", (6:ℚ)), (1001, "99214", (6:ℚ)) ] := rfl

theorem wproc : procPairs none wChunksA.flatten = [ (1001, (4:ℚ)) ] := rfl

theorem wk99203 : keySum2 (finalEM none wChunksA) 1001 "99203" = 0 := by
  rw [finalEM_keySum, wem, keySum2_cons, keySum2_cons, keySum2_nil,
    if_neg (by decide), if_neg (by decide)]
  norm_num

theorem wk99213 : keySum2 (finalEM none wChunksA) 1001 "99213" = 6 := by
  rw [finalEM_keySum, wem, keySum2_cons, keySum2_cons, keySum2_nil,
    if_pos (by decide), if_neg (by decide)]
  norm_num

theorem wk99204 : keySum2 (finalEM none wChunksA) 1001 "99204" = 0 := by
  rw [finalEM_keySum, wem, keySum2_cons, keySum2_cons, keySum2_nil,
    if_neg (by decide), if_neg (by decide)]
  norm_num

theorem wk99205 : keySum2 (finalEM none wChunksA) 1001 "99205" = 0 := by
  rw [finalEM_keySum, wem, keySum2_cons, keySum2_cons, keySum2_nil,
    if_neg (by decide), if_neg (by decide)]
  norm_num

theorem wk99214 : keySum2 (finalEM none wChunksA) 1001 "99214" = 6 := by
  rw [finalEM_keySum, wem, keySum2_cons, keySum2_cons, keySum2_nil,
    if_neg (by decide), if_pos (by decide)]
  norm_num

theorem wk99215 : keySum2 (finalEM none wChunksA) 1001 "99215" = 0 := by
  rw [finalEM_keySum, wem, keySum2_cons, keySum2_cons, keySum2_nil,
    if_neg (by decide), if_neg (by decide)]
  norm_num

theorem wl3 : (LEVEL_3_CODES.map fun c => keySum2 (finalEM none wChunksA) 1001 c).sum = 6 := by
  simp only [LEVEL_3_CODES, List.map_cons, List.map_nil, List.sum_cons, List.sum_nil,
    wk99203, wk99213]
  norm_num

theorem wl45 : (LEVEL_4_5_CODES.map fun c => keySum2 (finalEM none wChunksA) 1001 c).sum = 6 := by
  simp only [LEVEL_4_5_CODES, List.map_cons, List.map_nil, List.sum_cons, List.sum_nil,
    wk99204, wk99205, wk99214, wk99215]
  norm_num

theorem wkp : keySum1 (finalProc none wChunksA) 1001 = 4 := by
  rw [finalProc_keySum, wproc, keySum1_cons, keySum1_nil, if_pos (by decide)]
  norm_num

theorem wmem : 1001 ∈ (finalEM none wChunksA).map fun t => t.1 := by
  have hex : ∃ t ∈ emTriples none wChunksA.flatten, t.1 = 1001 :=
    ⟨(1001, "99213", (6:ℚ)), by rw [wem]; exact List.mem_cons_self _ _, rfl⟩
  obtain ⟨t, ht, h1⟩ := (finalEM_exists_fst none wChunksA 1001).mpr hex
  exact List.mem_map.mpr ⟨t, ht, h1⟩

theorem wEval : orgMetrics none wChunksA 1001 = some wOrgRow := by
  simp only [orgMetrics, wl3, wl45, wkp]
  rw [if_pos ⟨wmem, by norm_num⟩]
  simp only [wOrgRow, Option.some.injEq, OrgRow.mk.injEq]
  norm_num

theorem C4_aggregator_row_invariants_witness :
    orgMetrics none wChunksA 1001 = some wOrgRow
    ∧ (10 ≤ wOrgRow.total_eval_codes
       ∧ wOrgRow.count_level_3 + wOrgRow.count_level_4_5 = wOrgRow.total_eval_codes
       ∧ wOrgRow.undercoding_ratio = wOrgRow.count_level_4_5 / wOrgRow.total_eval_codes
       ∧ 0 ≤ wOrgRow.undercoding_ratio ∧ wOrgRow.undercoding_ratio ≤ 1
       ∧ wOrgRow.procedure_ratio = wOrgRow.total_procedure_codes /
           (wOrgRow.total_procedure_codes + wOrgRow.total_eval_codes)
       ∧ 0 ≤ wOrgRow.procedure_ratio ∧ wOrgRow.procedure_ratio ≤ 1
       ∧ (wOrgRow.total_procedure_codes = 0 → wOrgRow.procedure_ratio = 0)) :=
  ⟨wEval, C4_aggregator_row_invariants none wChunksA 1001 wOrgRow (by decide) wEval⟩

theorem C8_chunk_size_invariance_witness :
    wChunksB.flatten = wChunksC.flatten
    ∧ orgMetrics none wChunksB 1001 = orgMetrics none wChunksC 1001 :=
  ⟨rfl, C8_chunk_size_invariance none wChunksB wChunksC rfl 1001⟩

end Mine

theorem round1R_exists_tenths (x : ℝ) : ∃ k : ℤ, round1R x = (k : ℝ) / 10 :=
  ⟨round (10 * x), rfl⟩

theorem round1R_idem (x : ℝ) : round1R (round1R x) = round1R x := by
  obtain ⟨k, hk⟩ := round1R_exists_tenths x
  rw [hk, round1R_tenths]

namespace Score

theorem segAlign_nonneg (s : String) : 0 ≤ segAlign s := by
  unfold segAlign
  split_ifs <;> norm_num

theorem pa_nonneg (row : Row) : 0 ≤ score_procedure_alignment row := by
  unfold score_procedure_alignment
  rcases hE : get_expected_procedure_ratio row.taxonomy with _ | e
  all_goals rcases hP : row.procedure_ratio with _ | pr
  all_goals simp only [hE, hP, Option.getD_some, Option.getD_none, PROCEDURE_DEFICIT_THRESHOLD]
  all_goals split_ifs <;> try norm_num
  all_goals
    apply round1_nonneg
    nlinarith [show (e - pr - 1/5) / (1/5) * 6 = (e - pr - 1/5) * 30 from by ring]

theorem vbc_nonneg (row : Row) : 0 ≤ score_behavioral_vbc_readiness row := by
  unfold score_behavioral_vbc_readiness
  refine le_min ?_ (by norm_num)
  have h1 : (0:ℚ) ≤
      (match row.avg_mips_score with
        | some m => if 80 < m then 5 else if 60 ≤ m then 3 else 0
        | none => 0) := by
    rcases row.avg_mips_score with _ | m
    · norm_num
    · dsimp only
      split_ifs <;> norm_num
  have h2 : (0:ℚ) ≤ if truthy row.is_aco_participant then 5 else 0 := by
    split_ifs <;> norm_num
  have h3 : (0:ℚ) ≤ if truthy row.is_hpsa || truthy row.is_mua then 5 else 0 := by
    split_ifs <;> norm_num
  linarith

theorem provider_nonneg (n : ℚ) : 0 ≤ score_provider_count_continuous n := by
  unfold score_provider_count_continuous
  split_ifs with h1 h2
  · norm_num
  · norm_num
  · apply round1R_nonneg
    push_neg at h1 h2
    have hn1 : (1:ℝ) < (n:ℝ) := by exact_mod_cast h1
    have hl1 : 0 ≤ Real.log (n:ℝ) := Real.log_nonneg (le_of_lt hn1)
    have hl2 : (0:ℝ) < Real.log 100 := Real.log_pos (by norm_num)
    have := div_nonneg hl1 (le_of_lt hl2)
    nlinarith

theorem round1R_min_max_nonneg (hi m x : ℝ) (hhi : 0 ≤ hi) (hm : 0 ≤ m) :
    0 ≤ round1R (min hi (max m x)) :=
  round1R_nonneg (le_min hhi (le_trans hm (le_max_left m x)))

theorem revenue_nonneg (rev : ℚ) (seg : String) : 0 ≤ score_revenue_continuous rev seg := by
  unfold score_revenue_continuous
  split_ifs <;> try norm_num
  all_goals try (split_ifs <;> try norm_num)
  all_goals apply round1R_min_max_nonneg <;> norm_num

theorem volume_nonneg (v : ℚ) (b : Bool) : 0 ≤ score_volume_continuous v b := by
  unfold score_volume_continuous
  split_ifs <;> try norm_num
  all_goals apply round1R_min_max_nonneg <;> norm_num

theorem bvolume_nonneg (v : ℚ) (b : Bool) :
    0 ≤ score_behavioral_volume_continuous v b := by
  unfold score_behavioral_volume_continuous
  split_ifs <;> try norm_num
  all_goals apply round1R_min_max_nonneg <;> norm_num

theorem amb_pain_nonneg (pu pt pa : ℚ) (hpu : 0 ≤ pu) (hpt : 0 ≤ pt) (_hpa : 0 ≤ pa) :
    0 ≤ (if 0 < pa then min 40 ((if pu < pt then pt else pu) + pa)
      else (if pu < pt then pt else pu)) := by
  have h1 : (0:ℚ) ≤ if pu < pt then pt else pu := by
    by_cases h : pu < pt
    · rw [if_pos h]; exact hpt
    · rw [if_neg h]; exact hpu
  by_cases h : 0 < pa
  · rw [if_pos h]
    exact le_min (by norm_num) (by linarith)
  · rw [if_neg h]
    exact h1

theorem pain_nonneg (row : Row) : 0 ≤ pain_score row := by
  unfold pain_score
  by_cases h1 : detect_track row = "BEHAVIORAL"
  · rw [if_pos h1]
    have hp := (psych_bounds (some (row.psych_risk_ratio.getD 0))).1
    rcases row.total_psych_codes with _ | tp
    · linarith
    · dsimp only
      split_ifs with h3
      · refine le_min (by norm_num) ?_
        have hb : (0:ℚ) ≤ min 5 (tp / 1000 * 5) := by
          refine le_min (by norm_num) ?_
          have htp5 : tp / 1000 * 5 = tp * (1/200) := by ring
          nlinarith
        linarith
      · linarith
  · rw [if_neg h1]
    by_cases h2 : detect_track row = "POST_ACUTE"
    · rw [if_pos h2]
      rcases row.net_margin with _ | m
      · norm_num
      · dsimp only
        split_ifs with h3 h4
        · norm_num
        · apply round1_nonneg
          have hr : (1/20 - m) / (1/20) * 15 = (1/20 - m) * 300 := by ring
          nlinarith
        · norm_num
    · rw [if_neg h2]
      apply amb_pain_nonneg
      · exact (under_bounds _).1
      · split_ifs with h3
        · exact le_trans (by norm_num) (psych_bounds _).1
        · exact le_refl 0
      · exact pa_nonneg row

theorem fit_round (row : Row) : ∃ x : ℝ, fit_score row = round1R x := by
  simp only [fit_score]
  split_ifs <;> exact ⟨_, rfl⟩

theorem strat_round (row : Row) : ∃ x : ℝ, strat_score row = round1R x := by
  simp only [strat_score]
  split_ifs <;> exact ⟨_, rfl⟩

theorem fit_nonneg (row : Row) : 0 ≤ fit_score row := by
  unfold fit_score
  by_cases h1 : detect_track row = "BEHAVIORAL"
  · rw [if_pos h1]
    apply round1R_nonneg
    have hv := vbc_nonneg row
    have hvr : (0:ℝ) ≤ (score_behavioral_vbc_readiness row : ℝ) := Rat.cast_nonneg.mpr hv
    have hc : (0:ℝ) ≤ min (score_provider_count_continuous (row.npi_count.getD 1)) 5 :=
      le_min (provider_nonneg _) (by norm_num)
    linarith
  · rw [if_neg h1]
    apply round1R_nonneg
    have ht : (0:ℚ) ≤ (if truthy row.is_aco_participant then 3 else 0) +
        (if truthy row.risk_compliance_flag || truthy row.oig_leie_flag then 2 else 0) := by
      have p1 : (0:ℚ) ≤ if truthy row.is_aco_participant then 3 else 0 := by
        split_ifs <;> norm_num
      have p2 : (0:ℚ) ≤
          if truthy row.risk_compliance_flag || truthy row.oig_leie_flag then 2 else 0 := by
        split_ifs <;> norm_num
      linarith
    have hm : (0:ℚ) ≤
        (match row.avg_mips_score with
          | some m => if 80 < m then 5 else if m < 50 then 5 else 0
          | none => 0) := by
      rcases row.avg_mips_score with _ | m
      · norm_num
      · dsimp only
        split_ifs <;> norm_num
    have hh : (0:ℚ) ≤ if truthy row.is_hpsa || truthy row.is_mua then 5 else 0 := by
      split_ifs <;> norm_num
    refine add_nonneg (add_nonneg (add_nonneg (add_nonneg ?_ ?_) ?_) ?_) ?_
    · exact Rat.cast_nonneg.mpr (segAlign_nonneg _)
    · exact provider_nonneg _
    · exact Rat.cast_nonneg.mpr ht
    · exact Rat.cast_nonneg.mpr hm
    · exact Rat.cast_nonneg.mpr hh

theorem strat_nonneg (row : Row) : 0 ≤ strat_score row := by
  unfold strat_score
  by_cases h1 : detect_track row = "BEHAVIORAL"
  · rw [if_pos h1]
    apply round1R_nonneg
    have hv := bvolume_nonneg (vol_metric row) (is_verified_volume row)
    have hr : (0:ℝ) ≤
        (if (resolve_revenue row).getD (vol_metric row * 150) ≤ 0 then (2:ℝ)
          else if 15000000 ≤ (resolve_revenue row).getD (vol_metric row * 150) then 15
          else if (resolve_revenue row).getD (vol_metric row * 150) ≤ 1000000 then 2
          else
            round1R (min 15 (max 2 (2 +
              (Real.log ((resolve_revenue row).getD (vol_metric row * 150) : ℝ) -
                  Real.log 1000000) /
                (Real.log 15000000 - Real.log 1000000) * 13)))) := by
      split_ifs <;> try norm_num
      apply round1R_min_max_nonneg <;> norm_num
    linarith
  · rw [if_neg h1]
    apply round1R_nonneg
    have h2 := revenue_nonneg ((resolve_revenue row).getD
      (vol_metric row * (if corrected_segment row = "FQHC" then 300 else 100)))
      (corrected_segment row)
    have h3 := volume_nonneg (vol_metric row) (is_verified_volume row)
    linarith

end Score

namespace Score

theorem fit_total_eq (row : Row) :
    (calculate_row_score row).score_fit_total = fit_score row := by
  obtain ⟨x, hx⟩ := fit_round row
  show round1R (fit_score row) = fit_score row
  rw [hx, round1R_idem]

theorem strat_total_eq (row : Row) :
    (calculate_row_score row).score_strat_total = strat_score row := by
  obtain ⟨x, hx⟩ := strat_round row
  show round1R (strat_score row) = strat_score row
  rw [hx, round1R_idem]

theorem total_decompose (row : Row) :
    total_score row =
      ((round1 (pain_score row) : ℚ) : ℝ) + fit_score row + strat_score row := by
  obtain ⟨xf, hxf⟩ := fit_round row
  obtain ⟨xs, hxs⟩ := strat_round row
  obtain ⟨a, ha⟩ := round1R_exists_tenths xf
  obtain ⟨b, hb⟩ := round1R_exists_tenths xs
  have hfa : fit_score row = (a : ℝ) / 10 := by rw [hxf, ha]
  have hsb : strat_score row = (b : ℝ) / 10 := by rw [hxs, hb]
  unfold total_score
  rw [hfa, hsb,
    show (pain_score row : ℝ) + (a : ℝ) / 10 + (b : ℝ) / 10 =
      (pain_score row : ℝ) + ((a + b : ℤ) : ℝ) / 10 by push_cast; ring,
    round1R_add_tenths, round1R_cast]
  push_cast
  ring

theorem tier_characterization (row : Row) :
    ((icp_tier_of row = "Tier 1") ↔ 70 ≤ total_score row)
    ∧ ((icp_tier_of row = "Tier 2") ↔ 50 ≤ total_score row ∧ total_score row < 70)
    ∧ ((icp_tier_of row = "Tier 3") ↔ 30 ≤ total_score row ∧ total_score row < 50)
    ∧ ((icp_tier_of row = "Tier 4") ↔ total_score row < 30) := by
  unfold icp_tier_of
  by_cases h1 : (70:ℝ) ≤ total_score row
  · rw [if_pos h1]
    refine ⟨iff_of_true rfl h1, iff_of_false (by decide) ?_, iff_of_false (by decide) ?_,
      iff_of_false (by decide) ?_⟩
    · rintro ⟨_, h⟩
      linarith
    · rintro ⟨_, h⟩
      linarith
    · intro h
      linarith
  · rw [if_neg h1]
    push_neg at h1
    by_cases h2 : (50:ℝ) ≤ total_score row
    · rw [if_pos h2]
      refine ⟨iff_of_false (by decide) ?_, iff_of_true rfl ⟨h2, h1⟩,
        iff_of_false (by decide) ?_, iff_of_false (by decide) ?_⟩
      · intro h
        linarith
      · rintro ⟨_, h⟩
        linarith
      · intro h
        linarith
    · rw [if_neg h2]
      push_neg at h2
      by_cases h3 : (30:ℝ) ≤ total_score row
      · rw [if_pos h3]
        refine ⟨iff_of_false (by decide) ?_, iff_of_false (by decide) ?_,
          iff_of_true rfl ⟨h3, h2⟩, iff_of_false (by decide) ?_⟩
        · intro h
          linarith
        · rintro ⟨h, _⟩
          linarith
        · intro h
          linarith
      · rw [if_neg h3]
        push_neg at h3
        refine ⟨iff_of_false (by decide) ?_, iff_of_false (by decide) ?_,
          iff_of_false (by decide) ?_, iff_of_true rfl h3⟩
        · intro h
          linarith
        · rintro ⟨h, _⟩
          linarith
        · rintro ⟨h, _⟩
          linarith

theorem total_nonneg (row : Row) : 0 ≤ total_score row := by
  rw [total_decompose]
  have h1 : (0:ℚ) ≤ round1 (pain_score row) := round1_nonneg (pain_nonneg row)
  have h1r : (0:ℝ) ≤ ((round1 (pain_score row) : ℚ) : ℝ) := Rat.cast_nonneg.mpr h1
  have h2 := fit_nonneg row
  have h3 := strat_nonneg row
  linarith

/-- C5: for every input row, the engine's output satisfies
`icp_score = min(100, total)` where `total` is the sum of the emitted
pain, fit and strategy sub-scores, `icp_score` lies in [0, 100], and the
tier is Tier 1 iff `total ≥ 70`, Tier 2 iff `50 ≤ total < 70`, Tier 3 iff
`30 ≤ total < 50`, and Tier 4 otherwise. -/
theorem C5_total_and_tier (row : Row) :
    (calculate_row_score row).icp_score =
      min 100 (((calculate_row_score row).score_pain_total : ℝ) +
        (calculate_row_score row).score_fit_total +
        (calculate_row_score row).score_strat_total)
    ∧ 0 ≤ (calculate_row_score row).icp_score
    ∧ (calculate_row_score row).icp_score ≤ 100
    ∧ ((calculate_row_score row).icp_tier = "Tier 1" ↔
        70 ≤ ((calculate_row_score row).score_pain_total : ℝ) +
          (calculate_row_score row).score_fit_total +
          (calculate_row_score row).score_strat_total)
    ∧ ((calculate_row_score row).icp_tier = "Tier 2" ↔
        (50 ≤ ((calculate_row_score row).score_pain_total : ℝ) +
            (calculate_row_score row).score_fit_total +
            (calculate_row_score row).score_strat_total ∧
          ((calculate_row_score row).score_pain_total : ℝ) +
            (calculate_row_score row).score_fit_total +
            (calculate_row_score row).score_strat_total < 70))
    ∧ ((calculate_row_score row).icp_tier = "Tier 3" ↔
        (30 ≤ ((calculate_row_score row).score_pain_total : ℝ) +
            (calculate_row_score row).score_fit_total +
            (calculate_row_score row).score_strat_total ∧
          ((calculate_row_score row).score_pain_total : ℝ) +
            (calculate_row_score row).score_fit_total +
            (calculate_row_score row).score_strat_total < 50))
    ∧ ((calculate_row_score row).icp_tier = "Tier 4" ↔
        ((calculate_row_score row).score_pain_total : ℝ) +
          (calculate_row_score row).score_fit_total +
          (calculate_row_score row).score_strat_total < 30) := by
  have hT : ((calculate_row_score row).score_pain_total : ℝ) +
      (calculate_row_score row).score_fit_total +
      (calculate_row_score row).score_strat_total = total_score row := by
    rw [fit_total_eq, strat_total_eq]
    exact (total_decompose row).symm
  have hkey := tier_characterization row
  refine ⟨?_, ?_, ?_, ?_, ?_, ?_, ?_⟩
  · rw [hT]
    rfl
  · show 0 ≤ min 100 (total_score row)
    exact le_min (by norm_num) (total_nonneg row)
  · show min 100 (total_score row) ≤ 100
    exact min_le_left _ _
  · rw [hT]
    exact hkey.1
  · rw [hT]
    exact hkey.2.1
  · rw [hT]
    exact hkey.2.2.1
  · rw [hT]
    exact hkey.2.2.2

end Score

namespace Score

theorem corrected_segment_downgrade {row : Row} {r : ℚ}
    (hseg : row.segment_label = "Hospital") (hres : resolve_revenue row = some r)
    (hr : r < 10000000) : corrected_segment row = "Ambulatory Center" := by
  unfold corrected_segment
  have h1 : (row.segment_label == "Hospital") = true := by
    rw [hseg]
    decide
  have h2 : revenue_below (resolve_revenue row) 10000000 = true := by
    rw [hres]
    exact decide_eq_true hr
  rw [if_pos (by rw [Bool.and_eq_true]; exact ⟨h1, h2⟩)]

theorem corrected_segment_keep {row : Row}
    (hfalse : revenue_below (resolve_revenue row) 10000000 = false) :
    corrected_segment row = row.segment_label := by
  unfold corrected_segment
  rw [if_neg]
  rw [Bool.and_eq_true]
  rintro ⟨_, hc⟩
  rw [hfalse] at hc
  exact Bool.false_ne_true hc

/-- C7: a Hospital row whose resolved (fallback-chain) revenue is known
and strictly below $10,000,000 is emitted with segment label
"Ambulatory Center"; a Hospital with known revenue at or above
$10,000,000, or with no known revenue, keeps the label "Hospital". -/
theorem C7_hospital_segment_correction :
    (∀ (row : Row) (r : ℚ), row.segment_label = "Hospital" →
        resolve_revenue row = some r → r < 10000000 →
        (calculate_row_score row).segment_label = "Ambulatory Center")
    ∧ (∀ (row : Row) (r : ℚ), row.segment_label = "Hospital" →
        resolve_revenue row = some r → 10000000 ≤ r →
        (calculate_row_score row).segment_label = "Hospital")
    ∧ (∀ row : Row, row.segment_label = "Hospital" → resolve_revenue row = none →
        (calculate_row_score row).segment_label = "Hospital") := by
  refine ⟨?_, ?_, ?_⟩
  · intro row r hseg hres hr
    show corrected_segment row = "Ambulatory Center"
    exact corrected_segment_downgrade hseg hres hr
  · intro row r hseg hres hge
    show corrected_segment row = "Hospital"
    rw [corrected_segment_keep, hseg]
    rw [hres]
    exact decide_eq_false (not_lt.mpr hge)
  · intro row hseg hres
    show corrected_segment row = "Hospital"
    rw [corrected_segment_keep, hseg]
    rw [hres]
    rfl

theorem C7_hospital_segment_correction_witness :
    resolve_revenue wRow7a = some 5000000
    ∧ (calculate_row_score wRow7a).segment_label = "Ambulatory Center"
    ∧ resolve_revenue wRow7b = some 25000000
    ∧ (calculate_row_score wRow7b).segment_label = "Hospital"
    ∧ resolve_revenue wRow7c = none
    ∧ (calculate_row_score wRow7c).segment_label = "Hospital" :=
  ⟨rfl, C7_hospital_segment_correction.1 wRow7a 5000000 rfl rfl (by norm_num),
    rfl, C7_hospital_segment_correction.2.1 wRow7b 25000000 rfl rfl (by norm_num),
    rfl, C7_hospital_segment_correction.2.2 wRow7c rfl rfl⟩

/-- C9: the label "Low Pain - Strong Documentation" is unreachable on the
BEHAVIORAL and AMBULATORY tracks: the winning condition demands
`score_psych_risk_continuous(psych_risk) = 0`, but the curve returns at
least 10 for every input, so that conjunct is unsatisfiable. -/
theorem C9_low_pain_label_unreachable :
    (∀ o : Option ℚ, 10 ≤ score_psych_risk_continuous o)
    ∧ ∀ row : Row,
        ((calculate_row_score row).scoring_track = "BEHAVIORAL" ∨
          (calculate_row_score row).scoring_track = "AMBULATORY") →
        (calculate_row_score row).pain_label ≠ "Low Pain - Strong Documentation" := by
  refine ⟨fun o => (psych_bounds o).1, ?_⟩
  intro row _
  show pain_label_of row ≠ "Low Pain - Strong Documentation"
  unfold pain_label_of
  have hcurve := (psych_bounds (some (row.psych_risk_ratio.getD 0))).1
  by_cases h1 : detect_track row = "BEHAVIORAL"
  · rw [if_pos h1]
    rw [if_neg (by rintro ⟨_, hz⟩; rw [hz] at hcurve; norm_num at hcurve)]
    split_ifs <;> decide
  · rw [if_neg h1]
    by_cases h2 : detect_track row = "POST_ACUTE"
    · rw [if_pos h2]
      decide
    · rw [if_neg h2]
      rw [if_neg (by rintro ⟨_, hz, _⟩; rw [hz] at hcurve; norm_num at hcurve)]
      split_ifs <;> decide

theorem C9_low_pain_label_unreachable_witness :
    (calculate_row_score wRow9).scoring_track = "AMBULATORY"
    ∧ 10 ≤ score_psych_risk_continuous (some (1/2))
    ∧ (calculate_row_score wRow9).pain_label ≠ "Low Pain - Strong Documentation" :=
  ⟨by decide, C9_low_pain_label_unreachable.1 (some (1/2)),
    C9_low_pain_label_unreachable.2 wRow9 (Or.inr (by decide))⟩

/-- C10: track selection reads the original, uncorrected segment label:
a Hospital row with known resolved revenue under $10M and no behavioral
keyword in its name is scored on the POST_ACUTE track even though its
emitted segment label is the corrected "Ambulatory Center". -/
theorem C10_track_reads_original_segment :
    ∀ (row : Row) (r : ℚ), row.segment_label = "Hospital" →
      resolve_revenue row = some r → r < 10000000 →
      (behavioral_keywords.all fun k =>
        !(hasSub (upperChars row.org_name.data) k.data)) = true →
      (calculate_row_score row).scoring_track = "POST_ACUTE"
      ∧ (calculate_row_score row).segment_label = "Ambulatory Center" := by
  intro row r hseg hres hr hkw
  constructor
  · show detect_track row = "POST_ACUTE"
    unfold detect_track
    rw [if_neg (by rw [hseg]; decide)]
    rw [if_neg ?hany]
    case hany =>
      intro hc
      obtain ⟨k, hk, hks⟩ := List.any_eq_true.mp hc
      have hall := List.all_eq_true.mp hkw k hk
      rw [Bool.not_eq_true'] at hall
      rw [hall] at hks
      exact Bool.false_ne_true hks
    rw [if_pos (Or.inr hseg)]
  · show corrected_segment row = "Ambulatory Center"
    exact corrected_segment_downgrade hseg hres hr

theorem C10_track_reads_original_segment_witness :
    resolve_revenue wRow10 = some 5000000
    ∧ (calculate_row_score wRow10).scoring_track = "POST_ACUTE"
    ∧ (calculate_row_score wRow10).segment_label = "Ambulatory Center" := by
  have h := C10_track_reads_original_segment wRow10 5000000 rfl rfl (by norm_num) (by decide)
  exact ⟨rfl, h.1, h.2⟩

end Score

namespace Score

theorem w6_track : detect_track wRow6 = "AMBULATORY" := by decide

theorem w6_pa : score_procedure_alignment wRow6 = 0 := rfl

theorem w6_share : psych_share 10 (some 1000) = 10 / 1010 := by
  norm_num [psych_share]

theorem w6_gate : ¬ therapy_gate (wRow6.total_psych_codes.getD 0) wRow6.total_eval_codes := by
  rintro ⟨-, habs⟩
  have h10 : wRow6.total_psych_codes.getD 0 = 10 := rfl
  rw [h10] at habs
  norm_num at habs

set_option maxHeartbeats 800000 in
theorem w6_label : pain_label_of wRow6 = "Undercoding Pain" := by
  have hpr : wRow6.psych_risk_ratio = none := rfl
  have hur : wRow6.undercoding_ratio = some (3/5) := rfl
  have htp : wRow6.total_psych_codes = some 10 := rfl
  have hte : wRow6.total_eval_codes = some 1000 := rfl
  have hne1 : ("AMBULATORY" : String) ≠ "BEHAVIORAL" := by decide
  have hne2 : ("AMBULATORY" : String) ≠ "POST_ACUTE" := by decide
  norm_num [pain_label_of, w6_track, hpr, hur, htp, hte, w6_pa, w6_share, hne1, hne2,
    score_psych_risk_continuous, score_undercoding_continuous,
    UNDERCODING_NATIONAL_AVG]

set_option maxHeartbeats 800000 in
theorem w6_pain : pain_score wRow6 = 0 := by
  have hpr : wRow6.psych_risk_ratio = none := rfl
  have hur : wRow6.undercoding_ratio = some (3/5) := rfl
  have htp : wRow6.total_psych_codes = some 10 := rfl
  have hte : wRow6.total_eval_codes = some 1000 := rfl
  have hne1 : ("AMBULATORY" : String) ≠ "BEHAVIORAL" := by decide
  have hne2 : ("AMBULATORY" : String) ≠ "POST_ACUTE" := by decide
  norm_num [pain_score, w6_track, hpr, hur, htp, hte, w6_pa, w6_share, hne1, hne2,
    therapy_gate, score_psych_risk_continuous, score_undercoding_continuous,
    UNDERCODING_NATIONAL_AVG, UNDERCODING_SEVERE]

theorem w6_pain_total : (calculate_row_score wRow6).score_pain_total = 0 := by
  show round1 (pain_score wRow6) = 0
  rw [w6_pain, show (0:ℚ) = ((0:ℤ):ℚ) by norm_num, round1_intCast]

/-- C6 counterexample: for the claimed scenario row (Private Practice, no
behavioral keyword, `undercoding_ratio = 0.6`, `total_psych_codes = 10`),
the pain score is 0, not 10: 0.6 is at or above the 0.45 national
average, so `score_undercoding_continuous(0.6) = 0`. -/
theorem C6_pain_value_counterexample :
    wRow6.segment_label = "Private Practice"
    ∧ wRow6.undercoding_ratio = some (3/5)
    ∧ wRow6.total_psych_codes = some 10
    ∧ (calculate_row_score wRow6).scoring_track = "AMBULATORY"
    ∧ score_undercoding_continuous (some (3/5)) = 0
    ∧ score_undercoding_continuous (some (3/5)) ≠ 10
    ∧ (calculate_row_score wRow6).score_pain_total = 0
    ∧ (calculate_row_score wRow6).score_pain_total ≠ 10 := by
  have hu : score_undercoding_continuous (some (3/5)) = 0 := by
    norm_num [score_undercoding_continuous, UNDERCODING_NATIONAL_AVG]
  refine ⟨rfl, rfl, rfl, w6_track, hu, ?_, w6_pain_total, ?_⟩
  · rw [hu]
    norm_num
  · rw [w6_pain_total]
    norm_num

/-- C6 (amended): for a Private Practice row on the AMBULATORY track (no
behavioral keyword in the name) with `undercoding_ratio = 0.6` and
`total_psych_codes = 10` (below the 100-code threshold), the therapy gate
is closed, the pain label is "Undercoding Pain", and the pain score
equals `score_undercoding_continuous(0.6)`, which is 0 (a ratio at or
above the 0.45 national average scores zero undercoding pain). -/
theorem C6_undercoding_pain_scenario :
    (calculate_row_score wRow6).scoring_track = "AMBULATORY"
    ∧ ¬ therapy_gate (wRow6.total_psych_codes.getD 0) wRow6.total_eval_codes
    ∧ (calculate_row_score wRow6).pain_label = "Undercoding Pain"
    ∧ (calculate_row_score wRow6).score_pain_total =
        score_undercoding_continuous (some (3/5))
    ∧ score_undercoding_continuous (some (3/5)) = 0 := by
  have hu : score_undercoding_continuous (some (3/5)) = 0 := by
    norm_num [score_undercoding_continuous, UNDERCODING_NATIONAL_AVG]
  refine ⟨w6_track, w6_gate, w6_label, ?_, hu⟩
  rw [w6_pain_total, hu]

end Score

end Charta
